import Mathlib

/-!
Shallow embedding of the order-book indexer / reconciler.

The projection store (`positions`, `order_buckets`, `stop_buckets`) together
with the event handlers of `src/shared/db.js`, the API bucket computation of
`src/endpoint.js`, the state-only reconciler of `src/manual_state.js`, and the
exposure trigger of the SQL schema are translated into executable Lean
definitions.  JavaScript BigInt division (`a / b`, truncation toward zero)
is `Int.tdiv`; mathematical floor division is `Int.fdiv`.
-/

namespace OrderBook

/-- `assets` row: `asset_id` is the key; `tick_x6` is the column
`tick_size_usd6` read by `getAsset` / `computeBucketId`. -/
structure Asset where
  tick_x6 : Int
  lot_num : Int
  lot_den : Int
deriving DecidableEq, Repr

/-- A `positions` row (the columns the handlers read and write).
`state` is numeric: 0 = ORDER, 1 = OPEN, 2 = CLOSED, 3 = CANCELLED. -/
structure PositionRow where
  state : Nat
  asset_id : Nat
  trader_addr : String
  long_side : Bool
  lots : Int
  leverage_x : Int
  entry_x6 : Option Int
  target_x6 : Option Int
  sl_x6 : Int
  tp_x6 : Int
  liq_x6 : Int
  notional_usd6 : Option Int
  margin_usd6 : Option Int
  close_reason : Option Nat
  exec_x6 : Option Int
  pnl_usd6 : Option Int
deriving DecidableEq, Repr

/-- An `order_buckets` row; primary key `(asset_id, bucket_id, position_id)`. -/
structure OrderBucketRow where
  asset_id : Nat
  bucket_id : Int
  position_id : Nat
  lots : Int
  side : Bool
deriving DecidableEq, Repr

/-- A `stop_buckets` row; primary key
`(asset_id, bucket_id, position_id, stop_type)`; `stop_type` 1=SL 2=TP 3=LIQ. -/
structure StopBucketRow where
  asset_id : Nat
  bucket_id : Int
  position_id : Nat
  stop_type : Nat
  lots : Int
  side : Bool
deriving DecidableEq, Repr

/-- The relational store the handlers write to. -/
structure Store where
  assets : List (Nat × Asset)
  positions : List (Nat × PositionRow)
  orderBuckets : List OrderBucketRow
  stopBuckets : List StopBucketRow
deriving DecidableEq, Repr

/-- `divFloor` from `db.js`: `(a, b) => a / b` on BigInt, i.e. truncation
toward zero (despite the name it is not a mathematical floor). -/
def divFloor (a b : Int) : Int := Int.tdiv a b

/-- `mulDivFloor` from `db.js`: `(a, b, c) => (a * b) / c` on BigInt. -/
def mulDivFloor (a b c : Int) : Int := Int.tdiv (a * b) c

/-- Association-list lookup on the `positions` table (`?id=eq.X`). -/
def lookupPos (ps : List (Nat × PositionRow)) (id : Nat) : Option PositionRow :=
  (ps.find? (fun p => p.1 == id)).map (·.2)

/-- Association-list lookup on the `assets` table (`?asset_id=eq.X`). -/
def lookupAsset (asts : List (Nat × Asset)) (aid : Nat) : Option Asset :=
  (asts.find? (fun p => p.1 == aid)).map (·.2)

/-- PostgREST `POST positions?on_conflict=id` with
`Prefer: resolution=ignore-duplicates`: on primary-key conflict the existing
row is kept unchanged, otherwise the row is inserted. -/
def insertPosIgnoreDup (ps : List (Nat × PositionRow)) (id : Nat)
    (row : PositionRow) : List (Nat × PositionRow) :=
  if (lookupPos ps id).isSome then ps else ps ++ [(id, row)]

/-- PostgREST `PATCH positions?id=eq.X`: updates every row whose id matches
(a no-op when the row is absent). -/
def patchPos (ps : List (Nat × PositionRow)) (id : Nat)
    (f : PositionRow → PositionRow) : List (Nat × PositionRow) :=
  ps.map (fun p => if p.1 == id then (p.1, f p.2) else p)

/-- Primary-key conflict test for `order_buckets`. -/
def obConflict (rows : List OrderBucketRow) (r : OrderBucketRow) : Bool :=
  rows.any (fun x => x.asset_id == r.asset_id && x.bucket_id == r.bucket_id &&
    x.position_id == r.position_id)

/-- `POST order_buckets?on_conflict=asset_id,bucket_id,position_id` with
ignore-duplicates. -/
def obInsert (rows : List OrderBucketRow) (r : OrderBucketRow) :
    List OrderBucketRow :=
  if obConflict rows r then rows else rows ++ [r]

/-- Primary-key conflict test for `stop_buckets`. -/
def sbConflict (rows : List StopBucketRow) (r : StopBucketRow) : Bool :=
  rows.any (fun x => x.asset_id == r.asset_id && x.bucket_id == r.bucket_id &&
    x.position_id == r.position_id && x.stop_type == r.stop_type)

/-- `POST stop_buckets?on_conflict=...` with ignore-duplicates, one row. -/
def sbInsert (rows : List StopBucketRow) (r : StopBucketRow) :
    List StopBucketRow :=
  if sbConflict rows r then rows else rows ++ [r]

/-- Posting an array of stop rows (each with ignore-duplicates). -/
def sbInsertAll (rows : List StopBucketRow) (payload : List StopBucketRow) :
    List StopBucketRow :=
  payload.foldl sbInsert rows

/-- `DELETE order_buckets?position_id=eq.X`. -/
def obDeleteByPos (rows : List OrderBucketRow) (id : Nat) :
    List OrderBucketRow :=
  rows.filter (fun r => r.position_id ≠ id)

/-- `DELETE stop_buckets?position_id=eq.X`. -/
def sbDeleteByPos (rows : List StopBucketRow) (id : Nat) :
    List StopBucketRow :=
  rows.filter (fun r => r.position_id ≠ id)

/-- `DELETE stop_buckets?position_id=eq.X&stop_type=in.(1,2)`. -/
def sbDeleteSlTp (rows : List StopBucketRow) (id : Nat) :
    List StopBucketRow :=
  rows.filter (fun r => ¬ (r.position_id = id ∧ (r.stop_type = 1 ∨ r.stop_type = 2)))

/-- Result of a handler: success with the new store, or a thrown error
carrying the store as of the failure point (REST writes already performed
are not rolled back). -/
abbrev DbM := Except (String × Store) Store

/-- `computeNotionalAndMargin` from `db.js`.  JS BigInt division by zero
throws, so a zero `lot_den` or `leverage_x` is an error. -/
def computeNotionalAndMargin (entry_x6 lots leverage_x lot_num lot_den : Int) :
    Except String (Int × Int) :=
  if lot_den = 0 then .error "division_by_zero"
  else if leverage_x = 0 then .error "division_by_zero"
  else
    let notional := mulDivFloor entry_x6 (lots * lot_num) lot_den
    let margin := divFloor notional leverage_x
    .ok (notional, margin)

/-- The `rows` list built by `indexStops` in `db.js`: one `(price, type)`
pair per non-zero stop price (1=SL, 2=TP, 3=LIQ). -/
def stopRows (sl_x6 tp_x6 liq_x6 : Int) : List (Int × Nat) :=
  (if sl_x6 ≠ 0 then [(sl_x6, 1)] else []) ++
  (if tp_x6 ≠ 0 then [(tp_x6, 2)] else []) ++
  (if liq_x6 ≠ 0 then [(liq_x6, 3)] else [])

/-- The `payload` array built by `indexStops` in `db.js`: antagonistic side
(`!long_side`), bucket by truncated division with the tick. -/
def stopPayload (asset_id position_id : Nat) (sl_x6 tp_x6 liq_x6 : Int)
    (long_side : Bool) (lots tick : Int) : List StopBucketRow :=
  (stopRows sl_x6 tp_x6 liq_x6).map (fun r =>
    { asset_id := asset_id
      bucket_id := divFloor r.1 tick
      position_id := position_id
      stop_type := r.2
      lots := lots
      side := !long_side })

/-- `indexStops` from `db.js`: insert one antagonistic-side (`!long_side`)
`stop_buckets` row per non-zero stop price, bucketed by the asset's tick.
With no non-zero stop it returns before any division; otherwise a zero tick
raises the BigInt division-by-zero error (there is no tick validation). -/
def indexStops (s : Store) (asset_id : Nat) (position_id : Nat)
    (sl_x6 tp_x6 liq_x6 : Int) (long_side : Bool) (lots : Int) : DbM :=
  match lookupAsset s.assets asset_id with
  | none => .error ("asset_not_found", s)
  | some asset =>
    let tick := asset.tick_x6
    let rows := stopRows sl_x6 tp_x6 liq_x6
    if rows.isEmpty then .ok s
    else if tick = 0 then .error ("division_by_zero", s)
    else
      let payload :=
        stopPayload asset_id position_id sl_x6 tp_x6 liq_x6 long_side lots tick
      .ok { s with stopBuckets := sbInsertAll s.stopBuckets payload }

/-- The decoded `Opened` event payload. -/
structure OpenedEv where
  id : Nat
  state : Nat
  asset : Nat
  longSide : Bool
  lots : Int
  entryOrTargetX6 : Int
  slX6 : Int
  tpX6 : Int
  liqX6 : Int
  trader : String
  leverageX : Int
deriving DecidableEq, Repr

/-- The decoded `Executed` event payload. -/
structure ExecutedEv where
  id : Nat
  entryX6 : Int
deriving DecidableEq, Repr

/-- The decoded `StopsUpdated` event payload. -/
structure StopsEv where
  id : Nat
  slX6 : Int
  tpX6 : Int
deriving DecidableEq, Repr

/-- The decoded `Removed` event payload; `reason` is numeric:
0=CANCELLED 1=MARKET 2=SL 3=TP 4=LIQ. -/
structure RemovedEv where
  id : Nat
  reason : Nat
  execX6 : Int
  pnlUsd6 : Int
deriving DecidableEq, Repr

/-- The `positions` row body sent by `upsertOpenedEvent` (`calc0` is the
notional/margin pair, only stored for state 1). -/
def openedPosRow (ev : OpenedEv) (calc0 : Int × Int) : PositionRow :=
  { state := ev.state
    asset_id := ev.asset
    trader_addr := ev.trader
    long_side := ev.longSide
    lots := ev.lots
    leverage_x := ev.leverageX
    entry_x6 := if ev.state = 1 then some ev.entryOrTargetX6 else none
    target_x6 := if ev.state = 0 then some ev.entryOrTargetX6 else none
    sl_x6 := ev.slX6
    tp_x6 := ev.tpX6
    liq_x6 := ev.liqX6
    notional_usd6 := if ev.state = 1 then some calc0.1 else none
    margin_usd6 := if ev.state = 1 then some calc0.2 else none
    close_reason := none
    exec_x6 := none
    pnl_usd6 := none }

/-- The `order_buckets` row body sent by `upsertOpenedEvent` for state 0. -/
def openedOrderBucketRow (ev : OpenedEv) (tick : Int) : OrderBucketRow :=
  { asset_id := ev.asset
    bucket_id := divFloor ev.entryOrTargetX6 tick
    position_id := ev.id
    lots := ev.lots
    side := ev.longSide }

/-- `upsertOpenedEvent` from `db.js`: upsert the position (ignore-duplicates,
so an existing row keeps all its old values), then for state 0 insert the
`order_buckets` row keyed on the target bucket, and for any other state
delete and re-insert the position's `stop_buckets` rows. -/
def upsertOpenedEvent (s : Store) (ev : OpenedEv) : DbM :=
  match lookupAsset s.assets ev.asset with
  | none => .error ("asset_not_found", s)
  | some assetRow =>
    let nm : Except String (Int × Int) :=
      if ev.state = 1 then
        computeNotionalAndMargin ev.entryOrTargetX6 ev.lots ev.leverageX
          assetRow.lot_num assetRow.lot_den
      else .ok (0, 0)
    match nm with
    | .error e => .error (e, s)
    | .ok calc0 =>
      let row : PositionRow := openedPosRow ev calc0
      let s1 : Store :=
        { s with positions := insertPosIgnoreDup s.positions ev.id row }
      if ev.state = 0 then
        if assetRow.tick_x6 = 0 then .error ("division_by_zero", s1)
        else
          let obRow := openedOrderBucketRow ev assetRow.tick_x6
          .ok { s1 with orderBuckets := obInsert s1.orderBuckets obRow }
      else
        let s2 : Store :=
          { s1 with stopBuckets := sbDeleteByPos s1.stopBuckets ev.id }
        indexStops s2 ev.asset ev.id ev.slX6 ev.tpX6 ev.liqX6 ev.longSide ev.lots

/-- The row update `handleExecutedEvent` patches onto the position. -/
def execUpd (ev : ExecutedEv) (calc0 : Int × Int) :
    PositionRow → PositionRow := fun p =>
  { p with state := 1, entry_x6 := some ev.entryX6,
           notional_usd6 := some calc0.1, margin_usd6 := some calc0.2 }

/-- The row update `handleStopsUpdatedEvent` patches onto the position. -/
def stopsUpd (ev : StopsEv) : PositionRow → PositionRow := fun p =>
  { p with sl_x6 := ev.slX6, tp_x6 := ev.tpX6 }

/-- The row update `handleRemovedEvent` patches onto the position. -/
def removedUpd (ev : RemovedEv) : PositionRow → PositionRow := fun p =>
  { p with state := 2, close_reason := some ev.reason,
           exec_x6 := some ev.execX6, pnl_usd6 := some ev.pnlUsd6 }

/-- `handleExecutedEvent` from `db.js`: read the position (error if missing),
set state=1 / entry / notional / margin, delete the position's order and stop
rows, then re-index the stops stored on the position.  There is no guard on
the current state. -/
def handleExecutedEvent (s : Store) (ev : ExecutedEv) : DbM :=
  match lookupPos s.positions ev.id with
  | none => .error ("position_not_found", s)
  | some pos =>
    match lookupAsset s.assets pos.asset_id with
    | none => .error ("asset_not_found", s)
    | some assetRow =>
      match computeNotionalAndMargin ev.entryX6 pos.lots pos.leverage_x
          assetRow.lot_num assetRow.lot_den with
      | .error e => .error (e, s)
      | .ok calc0 =>
        let upd := execUpd ev calc0
        let s1 : Store := { s with positions := patchPos s.positions ev.id upd }
        let s2 : Store :=
          { s1 with orderBuckets := obDeleteByPos s1.orderBuckets ev.id }
        let s3 : Store :=
          { s2 with stopBuckets := sbDeleteByPos s2.stopBuckets ev.id }
        indexStops s3 pos.asset_id ev.id pos.sl_x6 pos.tp_x6 pos.liq_x6
          pos.long_side pos.lots

/-- `handleStopsUpdatedEvent` from `db.js`: read the position (error if
missing), patch SL/TP, delete SL/TP stop rows (LIQ kept), re-index the new
SL/TP with antagonistic side.  There is no guard on the current state. -/
def handleStopsUpdatedEvent (s : Store) (ev : StopsEv) : DbM :=
  match lookupPos s.positions ev.id with
  | none => .error ("position_not_found", s)
  | some pos =>
    let upd := stopsUpd ev
    let s1 : Store := { s with positions := patchPos s.positions ev.id upd }
    let s2 : Store :=
      { s1 with stopBuckets := sbDeleteSlTp s1.stopBuckets ev.id }
    indexStops s2 pos.asset_id ev.id ev.slX6 ev.tpX6 0 pos.long_side pos.lots

/-- `handleRemovedEvent` from `db.js`: unconditionally patch the position to
`state = 2` with `close_reason`, `exec_x6`, `pnl_usd6`, then delete the
position's `stop_buckets` rows.  `order_buckets` rows are not deleted and
the event's reason does not influence the stored state. -/
def handleRemovedEvent (s : Store) (ev : RemovedEv) : Store :=
  let upd := removedUpd ev
  let s1 : Store := { s with positions := patchPos s.positions ev.id upd }
  { s1 with stopBuckets := sbDeleteByPos s1.stopBuckets ev.id }

/-- `computeBucketId` from `endpoint.js` (the API bucket lookups):
404 if the asset is missing, `bad_tick` if `tick ≤ 0`, otherwise the
BigInt-truncated quotient. -/
def computeBucketId (s : Store) (assetId : Nat) (priceX6 : Int) :
    Except String Int :=
  match lookupAsset s.assets assetId with
  | none => .error "asset_not_found"
  | some asset =>
    if asset.tick_x6 ≤ 0 then .error "bad_tick"
    else .ok (divFloor priceX6 asset.tick_x6)

/-- One of the four logical chain events, as consumed by the subscribers. -/
inductive Event where
  | opened (ev : OpenedEv)
  | executed (ev : ExecutedEv)
  | stopsUpdated (ev : StopsEv)
  | removed (ev : RemovedEv)
deriving DecidableEq, Repr

/-- Dispatch of a consumed event to the matching `db.js` handler. -/
def applyEvent (s : Store) : Event → DbM
  | .opened ev => upsertOpenedEvent s ev
  | .executed ev => handleExecutedEvent s ev
  | .stopsUpdated ev => handleStopsUpdatedEvent s ev
  | .removed ev => .ok (handleRemovedEvent s ev)

/-- Per-id summary counters of `reconcileStateOnly` in `manual_state.js`. -/
structure RecOut where
  patched : Nat := 0
  executed : Nat := 0
  stops : Nat := 0
  removed : Nat := 0
  skipped : Nat := 0
  missingDb : Nat := 0
  rpcFailed : Nat := 0
deriving DecidableEq, Repr

/-- `patchDbState` from `manual_state.js`: patch only the `state` column. -/
def patchDbState (s : Store) (id : Nat) (st : Nat) : Store :=
  { s with positions := patchPos s.positions id (fun p => { p with state := st }) }

/-- `orderIndexedEqual` from `manual_state.js`: exactly one `order_buckets`
row with the position's `lots` and `side = long_side`. -/
def orderIndexedEqual (orders : List OrderBucketRow) (lots : Int)
    (long_side : Bool) : Bool :=
  match orders with
  | [o] => o.lots == lots && o.side == long_side
  | _ => false

/-- `stopsIndexedOkForOpen` from `manual_state.js`: every non-zero stop price
must have a `stop_buckets` row of its type with the position's `lots` and the
antagonistic side. -/
def stopsIndexedOkForOpen (stops : List StopBucketRow)
    (sl_x6 tp_x6 liq_x6 lots : Int) (long_side : Bool) : Bool :=
  let need : List Nat :=
    (if sl_x6 ≠ 0 then [1] else []) ++
    (if tp_x6 ≠ 0 then [2] else []) ++
    (if liq_x6 ≠ 0 then [3] else [])
  let sideShort := !long_side
  need.all (fun t => stops.any (fun r =>
    r.stop_type == t && r.lots == lots && r.side == sideShort))

/-- `hasAnyIndex` from `manual_state.js`. -/
def hasAnyIndex (orders : List OrderBucketRow) (stops : List StopBucketRow) :
    Bool :=
  !orders.isEmpty || !stops.isEmpty

/-- `reconcileStateOnly` from `manual_state.js` (state-only reconcile plus
consistency checks).  `chainState` stands for the on-chain `stateOf(id)`
answer; a thrown handler error is caught and counted as `rpcFailed`, keeping
whatever partial writes the handler performed. -/
def reconcileStateOnly (chainState : Nat) (s : Store) (id : Nat) :
    Store × RecOut :=
  match lookupPos s.positions id with
  | none => (s, { missingDb := 1 })
  | some db =>
    let dbEntry := db.entry_x6.getD 0
    let dbTarget := db.target_x6.getD 0
    let orders := s.orderBuckets.filter (fun r => r.position_id = id)
    let stops := s.stopBuckets.filter (fun r => r.position_id = id)
    if db.state ≠ chainState then
      if db.state = 0 ∧ chainState = 1 then
        let entryX6 := if dbEntry ≠ 0 then dbEntry
          else if dbTarget ≠ 0 then dbTarget else 0
        let step1 : DbM × RecOut :=
          if entryX6 ≠ 0 then
            match handleExecutedEvent s { id := id, entryX6 := entryX6 } with
            | .ok s1 => (.ok s1, { executed := 1 })
            | .error e => (.error e, {})
          else (.ok (patchDbState s id 1), { patched := 1 })
        match step1 with
        | (.error (_, sE), o) => (sE, { o with rpcFailed := 1 })
        | (.ok s1, o) =>
          if db.sl_x6 ≠ 0 ∨ db.tp_x6 ≠ 0 then
            match handleStopsUpdatedEvent s1
                { id := id, slX6 := db.sl_x6, tpX6 := db.tp_x6 } with
            | .ok s2 => (s2, { o with stops := 1 })
            | .error (_, sE) => (sE, { o with rpcFailed := 1 })
          else (s1, o)
      else if db.state = 1 ∧ (chainState = 2 ∨ chainState = 3) then
        let s1 := handleRemovedEvent s
          { id := id, reason := if chainState = 3 then 0 else 1,
            execX6 := 0, pnlUsd6 := 0 }
        let s2 := if chainState = 3 then patchDbState s1 id 3 else s1
        (s2, { removed := 1 })
      else
        (patchDbState s id chainState, { patched := 1 })
    else
      if chainState = 2 ∨ chainState = 3 then
        if hasAnyIndex orders stops then
          let s1 := handleRemovedEvent s
            { id := id, reason := if chainState = 3 then 0 else 1,
              execX6 := 0, pnlUsd6 := 0 }
          let s2 := if chainState = 3 then patchDbState s1 id 3 else s1
          (s2, { removed := 1 })
        else (s, { skipped := 1 })
      else if chainState = 0 then
        if ¬ orderIndexedEqual orders db.lots db.long_side then
          match upsertOpenedEvent s
              { id := id, state := 0, asset := db.asset_id,
                longSide := db.long_side, lots := db.lots,
                entryOrTargetX6 := dbTarget, slX6 := db.sl_x6,
                tpX6 := db.tp_x6, liqX6 := db.liq_x6,
                trader := db.trader_addr, leverageX := db.leverage_x } with
          | .ok s1 => (s1, { executed := 1 })
          | .error (_, sE) => (sE, { rpcFailed := 1 })
        else (s, { skipped := 1 })
      else if chainState = 1 then
        if ¬ orders.isEmpty then
          let entryX6 := if dbEntry ≠ 0 then dbEntry
            else if dbTarget ≠ 0 then dbTarget else 0
          if entryX6 ≠ 0 then
            match handleExecutedEvent s { id := id, entryX6 := entryX6 } with
            | .ok s1 => (s1, { executed := 1 })
            | .error (_, sE) => (sE, { rpcFailed := 1 })
          else (patchDbState s id 1, { executed := 1 })
        else if ¬ stopsIndexedOkForOpen stops db.sl_x6 db.tp_x6 db.liq_x6
            db.lots db.long_side then
          match handleStopsUpdatedEvent s
              { id := id, slX6 := db.sl_x6, tpX6 := db.tp_x6 } with
          | .ok s1 => (s1, { stops := 1 })
          | .error (_, sE) => (sE, { rpcFailed := 1 })
        else (s, { skipped := 1 })
      else (s, { skipped := 1 })

/-! ### Exposure aggregation (SQL schema: `exposure_apply` and
`positions_exposure_trg`) -/

/-- The columns of a `positions` row read by the exposure trigger
(`state` numeric, 1 = OPEN). -/
structure TrgPosRow where
  asset_id : Nat
  long_side : Bool
  lots : Int
  entry_x6 : Int
  leverage_x : Int
  liq_x6 : Int
  state : Nat
deriving DecidableEq, Repr

/-- One `exposure_agg` value row, as the tuple
`(sum_lots, sum_entry_x6_lots, sum_leverage_lots, sum_liq_x6_lots,
sum_liq_lots, positions_count)`. -/
abbrev ExpoVals : Type := Int × Int × Int × Int × Int × Int

/-- The `positions_count` column of an `exposure_agg` value. -/
def ExpoVals.positions_count (v : ExpoVals) : Int := v.2.2.2.2.2

/-- The `sum_lots` column of an `exposure_agg` value. -/
def ExpoVals.sum_lots (v : ExpoVals) : Int := v.1

/-- The `exposure_agg` table as a total map keyed by `(asset_id, side)`;
an absent row reads as all zeros, and `insert .. on conflict do update` is
pointwise addition at the key. -/
abbrev ExpoMap : Type := Nat → Bool → ExpoVals

/-- `exposure_apply` from the SQL schema: apply a signed delta for one
position at `(asset_id, side)`.  When `lots = 0` the function returns
without touching the table (including `positions_count`). -/
def exposure_apply (agg : ExpoMap) (aid : Nat) (sd : Bool)
    (lots entry_x6 lev_x liq_x6 sign : Int) : ExpoMap :=
  if lots = 0 then agg
  else
    let d : ExpoVals :=
      (sign * lots, sign * (entry_x6 * lots), sign * (lev_x * lots),
       if liq_x6 > 0 then sign * (liq_x6 * lots) else 0,
       if liq_x6 > 0 then sign * lots else 0,
       sign * 1)
    fun a b => if a = aid ∧ b = sd then agg a b + d else agg a b

/-- `positions_exposure_trg`, INSERT arm: add the new row if it is OPEN. -/
def trgInsertRow (agg : ExpoMap) (newR : TrgPosRow) : ExpoMap :=
  if newR.state = 1 then
    exposure_apply agg newR.asset_id newR.long_side newR.lots newR.entry_x6
      newR.leverage_x newR.liq_x6 1
  else agg

/-- `positions_exposure_trg`, DELETE arm: subtract the old row if OPEN. -/
def trgDeleteRow (agg : ExpoMap) (oldR : TrgPosRow) : ExpoMap :=
  if oldR.state = 1 then
    exposure_apply agg oldR.asset_id oldR.long_side oldR.lots oldR.entry_x6
      oldR.leverage_x oldR.liq_x6 (-1)
  else agg

/-- `positions_exposure_trg`, UPDATE arm: subtract the old contribution,
then add the new one. -/
def trgUpdateRow (agg : ExpoMap) (oldR newR : TrgPosRow) : ExpoMap :=
  trgInsertRow (trgDeleteRow agg oldR) newR

/-- The `positions` table together with its trigger-maintained
`exposure_agg`. -/
structure Proj where
  positions : List (Nat × TrgPosRow)
  agg : ExpoMap

/-- Lookup in the trigger-level `positions` table. -/
def lookupTrg (ps : List (Nat × TrgPosRow)) (id : Nat) : Option TrgPosRow :=
  (ps.find? (fun p => p.1 == id)).map (·.2)

/-- A row-level write on `positions` (the trigger fires per affected row):
insert with ignore-duplicates, patch by id, or delete by id. -/
inductive TrgOp where
  | insert (id : Nat) (r : TrgPosRow)
  | update (id : Nat) (f : TrgPosRow → TrgPosRow)
  | delete (id : Nat)

/-- Apply one row-level `positions` write, firing the exposure trigger for
each affected row. -/
def applyTrgOp (p : Proj) : TrgOp → Proj
  | .insert id r =>
    if (lookupTrg p.positions id).isSome then p
    else { positions := p.positions ++ [(id, r)], agg := trgInsertRow p.agg r }
  | .update id f =>
    { positions := p.positions.map (fun q => if q.1 = id then (q.1, f q.2) else q)
      agg := p.positions.foldl
        (fun g q => if q.1 = id then trgUpdateRow g q.2 (f q.2) else g) p.agg }
  | .delete id =>
    { positions := p.positions.filter (fun q => q.1 ≠ id)
      agg := p.positions.foldl
        (fun g q => if q.1 = id then trgDeleteRow g q.2 else g) p.agg }

/-- A sequence of row-level writes. -/
def applyTrgOps (p : Proj) (ops : List TrgOp) : Proj :=
  ops.foldl applyTrgOp p

/-- The projection before any write: no rows, all aggregates zero. -/
def Proj.empty : Proj := { positions := [], agg := fun _ _ => 0 }

/-- The contribution `exposure_apply` records for one OPEN row
(zero for a zero-lot row, which the function skips entirely). -/
def rowContrib (r : TrgPosRow) : ExpoVals :=
  if r.lots = 0 then 0
  else (r.lots, r.entry_x6 * r.lots, r.leverage_x * r.lots,
        if r.liq_x6 > 0 then r.liq_x6 * r.lots else 0,
        if r.liq_x6 > 0 then r.lots else 0,
        1)

/-- The conditional contribution of a keyed row to the `(a, sd)` aggregate. -/
def openContribIf (r : TrgPosRow) (a : Nat) (sd : Bool) : ExpoVals :=
  if r.state = 1 ∧ a = r.asset_id ∧ sd = r.long_side then rowContrib r else 0

/-- The `(a, sd)` aggregate recomputed from the `positions` rows exactly as
the trigger maintains it: summing over rows with `state = OPEN`,
`asset_id = a`, `long_side = sd` and `lots ≠ 0` (liq sums over rows with
`liq_x6 > 0`). -/
def recomputeAgg (ps : List (Nat × TrgPosRow)) (a : Nat) (sd : Bool) :
    ExpoVals :=
  ps.foldr (fun q acc => openContribIf q.2 a sd + acc) 0

/-- The contribution of one OPEN row as the spec claim words it — with no
restriction on `lots`. -/
def specRowContrib (r : TrgPosRow) : ExpoVals :=
  (r.lots, r.entry_x6 * r.lots, r.leverage_x * r.lots,
   if r.liq_x6 > 0 then r.liq_x6 * r.lots else 0,
   if r.liq_x6 > 0 then r.lots else 0,
   1)

/-- Modelled from the claim's words (not from the source): the aggregates
recomputed from all positions rows with `state = OPEN` and
`long_side = side`, liq sums restricted to `liq_x6 > 0`, and no further
restriction. -/
def specRecomputeAgg (ps : List (Nat × TrgPosRow)) (a : Nat) (sd : Bool) :
    ExpoVals :=
  ps.foldr (fun q acc =>
    (if q.2.state = 1 ∧ q.2.asset_id = a ∧ q.2.long_side = sd then
      specRowContrib q.2 else 0) + acc) 0

/-- The exposure invariant: every `exposure_agg` entry equals the aggregate
recomputed from the `positions` rows. -/
def ExposureInv (p : Proj) : Prop :=
  ∀ a sd, p.agg a sd = recomputeAgg p.positions a sd

/-! ### Lemmas about the table primitives -/

theorem lookupPos_patchPos (ps : List (Nat × PositionRow)) (id : Nat)
    (f : PositionRow → PositionRow) :
    lookupPos (patchPos ps id f) id = (lookupPos ps id).map f := by
  induction ps with
  | nil => rfl
  | cons q ps ih =>
    by_cases h : q.1 = id
    · simp [lookupPos, patchPos, List.find?_cons, h]
    · have hb : (q.1 == id) = false := by simpa using h
      simp only [lookupPos, patchPos, List.map_cons] at ih ⊢
      rw [List.find?_cons, List.find?_cons]
      simp only [hb, if_false]
      simpa [hb] using ih

theorem insertPosIgnoreDup_of_isSome {ps : List (Nat × PositionRow)}
    {id : Nat} (row : PositionRow) (h : (lookupPos ps id).isSome) :
    insertPosIgnoreDup ps id row = ps := by
  simp [insertPosIgnoreDup, h]

theorem lookupPos_append_single (ps : List (Nat × PositionRow)) (id : Nat)
    (row : PositionRow) :
    (lookupPos (ps ++ [(id, row)]) id).isSome := by
  induction ps with
  | nil => simp [lookupPos, List.find?_cons]
  | cons q ps ih =>
    by_cases hq : q.1 = id
    · simp [lookupPos, List.find?_cons, hq]
    · have hb : (q.1 == id) = false := by simpa using hq
      simp only [List.cons_append]
      simp [lookupPos, List.find?_cons, hb]

theorem lookupPos_insertPosIgnoreDup (ps : List (Nat × PositionRow))
    (id : Nat) (row : PositionRow) :
    (lookupPos (insertPosIgnoreDup ps id row) id).isSome := by
  unfold insertPosIgnoreDup
  split
  · assumption
  · exact lookupPos_append_single ps id row

theorem filter_sbInsert (p : StopBucketRow → Bool) (base : List StopBucketRow)
    (r : StopBucketRow) (h : p r = false) :
    (sbInsert base r).filter p = base.filter p := by
  unfold sbInsert
  split
  · rfl
  · simp [List.filter_append, h]

theorem filter_sbInsertAll (p : StopBucketRow → Bool)
    (payload base : List StopBucketRow)
    (h : ∀ r ∈ payload, p r = false) :
    (sbInsertAll base payload).filter p = base.filter p := by
  induction payload generalizing base with
  | nil => rfl
  | cons r rest ih =>
    have hr : p r = false := h r (List.mem_cons_self r rest)
    have hrest : ∀ x ∈ rest, p x = false := fun x hx =>
      h x (List.mem_cons_of_mem r hx)
    calc (sbInsertAll (sbInsert base r) rest).filter p
        = (sbInsert base r).filter p := ih (sbInsert base r) hrest
      _ = base.filter p := filter_sbInsert p base r hr

theorem filter_idem {α : Type} (p : α → Bool) (l : List α) :
    (l.filter p).filter p = l.filter p := by
  induction l with
  | nil => rfl
  | cons a l ih =>
    by_cases h : p a
    · simp [List.filter_cons, h, ih]
    · simp only [Bool.not_eq_true] at h
      simp [List.filter_cons, h, ih]

theorem insertPosIgnoreDup_idem (ps : List (Nat × PositionRow)) (id : Nat)
    (row row' : PositionRow) :
    insertPosIgnoreDup (insertPosIgnoreDup ps id row) id row' =
      insertPosIgnoreDup ps id row :=
  insertPosIgnoreDup_of_isSome row' (lookupPos_insertPosIgnoreDup ps id row)

theorem obConflict_append_self (rows : List OrderBucketRow)
    (r : OrderBucketRow) : obConflict (rows ++ [r]) r = true := by
  unfold obConflict
  simp [List.any_append]

theorem obInsert_idem (rows : List OrderBucketRow) (r : OrderBucketRow) :
    obInsert (obInsert rows r) r = obInsert rows r := by
  by_cases h : obConflict rows r
  · simp [obInsert, h]
  · have h2 : obInsert rows r = rows ++ [r] := by simp [obInsert, h]
    rw [h2]
    simp [obInsert, obConflict_append_self]

theorem patchPos_patchPos (ps : List (Nat × PositionRow)) (id : Nat)
    (f : PositionRow → PositionRow) (hf : ∀ p, f (f p) = f p) :
    patchPos (patchPos ps id f) id f = patchPos ps id f := by
  unfold patchPos
  rw [List.map_map]
  apply List.map_congr_left
  intro p _
  by_cases h : p.1 = id
  · simp [Function.comp, h, hf]
  · have hb : (p.1 == id) = false := by simpa using h
    simp [Function.comp, hb]

theorem stopPayload_position_id (aid pid : Nat) (sl tp liq : Int) (ls : Bool)
    (lots tick : Int) :
    ∀ r ∈ stopPayload aid pid sl tp liq ls lots tick, r.position_id = pid := by
  intro r hr
  obtain ⟨x, _, rfl⟩ := List.mem_map.mp hr
  rfl

theorem stopPayload_sl_tp (aid pid : Nat) (sl tp : Int) (ls : Bool)
    (lots tick : Int) :
    ∀ r ∈ stopPayload aid pid sl tp 0 ls lots tick,
      r.stop_type = 1 ∨ r.stop_type = 2 := by
  intro r hr
  obtain ⟨x, hx, rfl⟩ := List.mem_map.mp hr
  show x.2 = 1 ∨ x.2 = 2
  unfold stopRows at hx
  by_cases hsl : sl = 0 <;> by_cases htp : tp = 0 <;>
    simp [hsl, htp] at hx <;> try rcases hx with rfl | rfl
  all_goals simp_all

theorem indexStops_eval (s : Store) (aid pid : Nat) (sl tp liq : Int)
    (ls : Bool) (lots : Int) (a : Asset)
    (hA : lookupAsset s.assets aid = some a)
    (hcond : stopRows sl tp liq = [] ∨ a.tick_x6 ≠ 0) :
    indexStops s aid pid sl tp liq ls lots =
      .ok { s with
            stopBuckets := sbInsertAll s.stopBuckets
              (stopPayload aid pid sl tp liq ls lots a.tick_x6) } := by
  unfold indexStops
  rw [hA]
  rcases hcond with h | h
  · simp [h, stopPayload, sbInsertAll]
  · by_cases he : (stopRows sl tp liq).isEmpty
    · have hnil : stopRows sl tp liq = [] := by
        simpa [List.isEmpty_iff] using he
      simp [hnil, stopPayload, sbInsertAll]
    · simp [he, h]

theorem indexStops_ok_inv (s : Store) (aid pid : Nat) (sl tp liq : Int)
    (ls : Bool) (lots : Int) (s' : Store)
    (h : indexStops s aid pid sl tp liq ls lots = .ok s') :
    ∃ a, lookupAsset s.assets aid = some a ∧
      (stopRows sl tp liq = [] ∨ a.tick_x6 ≠ 0) ∧
      s' = { s with
             stopBuckets := sbInsertAll s.stopBuckets
               (stopPayload aid pid sl tp liq ls lots a.tick_x6) } := by
  cases hA : lookupAsset s.assets aid with
  | none =>
    simp only [indexStops, hA] at h
    exact Except.noConfusion h
  | some a =>
    by_cases hcond : stopRows sl tp liq = [] ∨ a.tick_x6 ≠ 0
    · have he := indexStops_eval s aid pid sl tp liq ls lots a hA hcond
      rw [he] at h
      exact ⟨a, rfl, hcond, (Except.ok.inj h).symm⟩
    · push_neg at hcond
      obtain ⟨hne, ht⟩ := hcond
      have hemp : (stopRows sl tp liq).isEmpty = false := by
        simpa [List.isEmpty_iff] using hne
      simp only [indexStops, hA, hemp, ht] at h
      exact Except.noConfusion h

theorem handleExecutedEvent_eval (s : Store) (ev : ExecutedEv)
    (p : PositionRow) (a : Asset) (nm : Int × Int)
    (hp : lookupPos s.positions ev.id = some p)
    (hA : lookupAsset s.assets p.asset_id = some a)
    (hnm : computeNotionalAndMargin ev.entryX6 p.lots p.leverage_x
      a.lot_num a.lot_den = .ok nm)
    (hcond : stopRows p.sl_x6 p.tp_x6 p.liq_x6 = [] ∨ a.tick_x6 ≠ 0) :
    handleExecutedEvent s ev = .ok
      { assets := s.assets
        positions := patchPos s.positions ev.id (execUpd ev nm)
        orderBuckets := obDeleteByPos s.orderBuckets ev.id
        stopBuckets := sbInsertAll (sbDeleteByPos s.stopBuckets ev.id)
          (stopPayload p.asset_id ev.id p.sl_x6 p.tp_x6 p.liq_x6
            p.long_side p.lots a.tick_x6) } := by
  simp only [handleExecutedEvent, hp, hA, hnm]
  exact indexStops_eval _ _ _ _ _ _ _ _ a hA hcond

theorem handleExecutedEvent_ok_inv (s : Store) (ev : ExecutedEv) (s' : Store)
    (h : handleExecutedEvent s ev = .ok s') :
    ∃ p a nm, lookupPos s.positions ev.id = some p ∧
      lookupAsset s.assets p.asset_id = some a ∧
      computeNotionalAndMargin ev.entryX6 p.lots p.leverage_x
        a.lot_num a.lot_den = .ok nm ∧
      (stopRows p.sl_x6 p.tp_x6 p.liq_x6 = [] ∨ a.tick_x6 ≠ 0) ∧
      s' = { assets := s.assets
             positions := patchPos s.positions ev.id (execUpd ev nm)
             orderBuckets := obDeleteByPos s.orderBuckets ev.id
             stopBuckets := sbInsertAll (sbDeleteByPos s.stopBuckets ev.id)
               (stopPayload p.asset_id ev.id p.sl_x6 p.tp_x6 p.liq_x6
                 p.long_side p.lots a.tick_x6) } := by
  cases hp : lookupPos s.positions ev.id with
  | none =>
    simp only [handleExecutedEvent, hp] at h
    exact Except.noConfusion h
  | some p =>
  cases hA : lookupAsset s.assets p.asset_id with
  | none =>
    simp only [handleExecutedEvent, hp, hA] at h
    exact Except.noConfusion h
  | some a =>
  cases hnm : computeNotionalAndMargin ev.entryX6 p.lots p.leverage_x
      a.lot_num a.lot_den with
  | error e =>
    simp only [handleExecutedEvent, hp, hA, hnm] at h
    exact Except.noConfusion h
  | ok nm =>
  simp only [handleExecutedEvent, hp, hA, hnm] at h
  obtain ⟨a', hA', hcond, hs'⟩ := indexStops_ok_inv _ _ _ _ _ _ _ _ _ h
  have haa : a' = a := Option.some.inj (hA'.symm.trans hA)
  subst haa
  exact ⟨p, a', nm, rfl, hA, hnm, hcond, hs'⟩

theorem handleStopsUpdatedEvent_eval (s : Store) (ev : StopsEv)
    (p : PositionRow) (a : Asset)
    (hp : lookupPos s.positions ev.id = some p)
    (hA : lookupAsset s.assets p.asset_id = some a)
    (hcond : stopRows ev.slX6 ev.tpX6 0 = [] ∨ a.tick_x6 ≠ 0) :
    handleStopsUpdatedEvent s ev = .ok
      { assets := s.assets
        positions := patchPos s.positions ev.id (stopsUpd ev)
        orderBuckets := s.orderBuckets
        stopBuckets := sbInsertAll (sbDeleteSlTp s.stopBuckets ev.id)
          (stopPayload p.asset_id ev.id ev.slX6 ev.tpX6 0
            p.long_side p.lots a.tick_x6) } := by
  simp only [handleStopsUpdatedEvent, hp]
  exact indexStops_eval _ _ _ _ _ _ _ _ a hA hcond

theorem handleStopsUpdatedEvent_ok_inv (s : Store) (ev : StopsEv) (s' : Store)
    (h : handleStopsUpdatedEvent s ev = .ok s') :
    ∃ p a, lookupPos s.positions ev.id = some p ∧
      lookupAsset s.assets p.asset_id = some a ∧
      (stopRows ev.slX6 ev.tpX6 0 = [] ∨ a.tick_x6 ≠ 0) ∧
      s' = { assets := s.assets
             positions := patchPos s.positions ev.id (stopsUpd ev)
             orderBuckets := s.orderBuckets
             stopBuckets := sbInsertAll (sbDeleteSlTp s.stopBuckets ev.id)
               (stopPayload p.asset_id ev.id ev.slX6 ev.tpX6 0
                 p.long_side p.lots a.tick_x6) } := by
  cases hp : lookupPos s.positions ev.id with
  | none =>
    simp only [handleStopsUpdatedEvent, hp] at h
    exact Except.noConfusion h
  | some p =>
  simp only [handleStopsUpdatedEvent, hp] at h
  obtain ⟨a, hA, hcond, hs'⟩ := indexStops_ok_inv _ _ _ _ _ _ _ _ _ h
  exact ⟨p, a, rfl, hA, hcond, hs'⟩

theorem upsertOpenedEvent_eval_order (s : Store) (ev : OpenedEv) (a : Asset)
    (hA : lookupAsset s.assets ev.asset = some a)
    (hst : ev.state = 0) (ht : a.tick_x6 ≠ 0) :
    upsertOpenedEvent s ev = .ok
      { assets := s.assets
        positions := insertPosIgnoreDup s.positions ev.id
          (openedPosRow ev (0, 0))
        orderBuckets := obInsert s.orderBuckets
          (openedOrderBucketRow ev a.tick_x6)
        stopBuckets := s.stopBuckets } := by
  have h1 : ev.state ≠ 1 := by omega
  simp only [upsertOpenedEvent, hA, if_neg h1, if_pos hst, if_neg ht]

theorem upsertOpenedEvent_eval_open (s : Store) (ev : OpenedEv) (a : Asset)
    (nm : Int × Int)
    (hA : lookupAsset s.assets ev.asset = some a)
    (hst : ev.state ≠ 0)
    (hnm : (if ev.state = 1 then
        computeNotionalAndMargin ev.entryOrTargetX6 ev.lots ev.leverageX
          a.lot_num a.lot_den
      else .ok (0, 0)) = .ok nm)
    (hcond : stopRows ev.slX6 ev.tpX6 ev.liqX6 = [] ∨ a.tick_x6 ≠ 0) :
    upsertOpenedEvent s ev = .ok
      { assets := s.assets
        positions := insertPosIgnoreDup s.positions ev.id (openedPosRow ev nm)
        orderBuckets := s.orderBuckets
        stopBuckets := sbInsertAll
          (sbDeleteByPos s.stopBuckets ev.id)
          (stopPayload ev.asset ev.id ev.slX6 ev.tpX6 ev.liqX6
            ev.longSide ev.lots a.tick_x6) } := by
  simp only [upsertOpenedEvent, hA, hnm, if_neg hst]
  exact indexStops_eval _ _ _ _ _ _ _ _ a hA hcond

theorem upsertOpenedEvent_ok_inv (s : Store) (ev : OpenedEv) (s' : Store)
    (h : upsertOpenedEvent s ev = .ok s') :
    ∃ a nm, lookupAsset s.assets ev.asset = some a ∧
      (if ev.state = 1 then
        computeNotionalAndMargin ev.entryOrTargetX6 ev.lots ev.leverageX
          a.lot_num a.lot_den
      else .ok (0, 0)) = .ok nm ∧
      ((ev.state = 0 ∧ a.tick_x6 ≠ 0 ∧
        s' = { assets := s.assets
               positions := insertPosIgnoreDup s.positions ev.id
                 (openedPosRow ev nm)
               orderBuckets := obInsert s.orderBuckets
                 (openedOrderBucketRow ev a.tick_x6)
               stopBuckets := s.stopBuckets }) ∨
       (ev.state ≠ 0 ∧
        (stopRows ev.slX6 ev.tpX6 ev.liqX6 = [] ∨ a.tick_x6 ≠ 0) ∧
        s' = { assets := s.assets
               positions := insertPosIgnoreDup s.positions ev.id
                 (openedPosRow ev nm)
               orderBuckets := s.orderBuckets
               stopBuckets := sbInsertAll
                 (sbDeleteByPos s.stopBuckets ev.id)
                 (stopPayload ev.asset ev.id ev.slX6 ev.tpX6 ev.liqX6
                   ev.longSide ev.lots a.tick_x6) })) := by
  cases hA : lookupAsset s.assets ev.asset with
  | none =>
    simp only [upsertOpenedEvent, hA] at h
    exact Except.noConfusion h
  | some a =>
  cases hnm : (if ev.state = 1 then
      computeNotionalAndMargin ev.entryOrTargetX6 ev.lots ev.leverageX
        a.lot_num a.lot_den
    else .ok (0, 0)) with
  | error e =>
    simp only [upsertOpenedEvent, hA, hnm] at h
    exact Except.noConfusion h
  | ok nm =>
  refine ⟨a, nm, rfl, hnm, ?_⟩
  by_cases hst : ev.state = 0
  · by_cases ht : a.tick_x6 = 0
    · simp only [upsertOpenedEvent, hA, hnm, if_pos hst, if_pos ht] at h
      exact Except.noConfusion h
    · simp only [upsertOpenedEvent, hA, hnm, if_pos hst, if_neg ht] at h
      exact Or.inl ⟨hst, ht, (Except.ok.inj h).symm⟩
  · simp only [upsertOpenedEvent, hA, hnm, if_neg hst] at h
    obtain ⟨a', hA', hcond, hs'⟩ := indexStops_ok_inv _ _ _ _ _ _ _ _ _ h
    have haa : a' = a := Option.some.inj (hA'.symm.trans hA)
    subst haa
    exact Or.inr ⟨hst, hcond, hs'⟩

theorem sbDeleteByPos_idem (rows : List StopBucketRow) (id : Nat) :
    sbDeleteByPos (sbDeleteByPos rows id) id = sbDeleteByPos rows id :=
  filter_idem _ _

theorem obDeleteByPos_idem (rows : List OrderBucketRow) (id : Nat) :
    obDeleteByPos (obDeleteByPos rows id) id = obDeleteByPos rows id :=
  filter_idem _ _

theorem sbDeleteSlTp_idem (rows : List StopBucketRow) (id : Nat) :
    sbDeleteSlTp (sbDeleteSlTp rows id) id = sbDeleteSlTp rows id :=
  filter_idem _ _

theorem sbDeleteByPos_sbInsertAll (base payload : List StopBucketRow)
    (id : Nat) (hall : ∀ r ∈ payload, r.position_id = id) :
    sbDeleteByPos (sbInsertAll base payload) id = sbDeleteByPos base id := by
  unfold sbDeleteByPos
  apply filter_sbInsertAll
  intro r hr
  simp [hall r hr]

theorem sbDeleteSlTp_sbInsertAll (base payload : List StopBucketRow)
    (id : Nat)
    (hall : ∀ r ∈ payload,
      r.position_id = id ∧ (r.stop_type = 1 ∨ r.stop_type = 2)) :
    sbDeleteSlTp (sbInsertAll base payload) id = sbDeleteSlTp base id := by
  unfold sbDeleteSlTp
  apply filter_sbInsertAll
  intro r hr
  rcases (hall r hr).2 with h2 | h2 <;> simp [(hall r hr).1, h2]

/-! ### Idempotence of the handlers under exact re-delivery -/

theorem handleRemoved_idem (s : Store) (ev : RemovedEv) :
    handleRemovedEvent (handleRemovedEvent s ev) ev = handleRemovedEvent s ev := by
  simp only [handleRemovedEvent]
  rw [patchPos_patchPos s.positions ev.id (removedUpd ev) (fun p => rfl),
    sbDeleteByPos_idem]

theorem handleExecuted_idem (s s' : Store) (ev : ExecutedEv)
    (h : handleExecutedEvent s ev = .ok s') :
    handleExecutedEvent s' ev = .ok s' := by
  obtain ⟨p, a, nm, hp, hA, hnm, hcond, rfl⟩ :=
    handleExecutedEvent_ok_inv s ev s' h
  have hp2 : lookupPos (patchPos s.positions ev.id (execUpd ev nm)) ev.id =
      some (execUpd ev nm p) := by
    rw [lookupPos_patchPos, hp]
    rfl
  have h2 := handleExecutedEvent_eval
    { assets := s.assets
      positions := patchPos s.positions ev.id (execUpd ev nm)
      orderBuckets := obDeleteByPos s.orderBuckets ev.id
      stopBuckets := sbInsertAll (sbDeleteByPos s.stopBuckets ev.id)
        (stopPayload p.asset_id ev.id p.sl_x6 p.tp_x6 p.liq_x6
          p.long_side p.lots a.tick_x6) }
    ev (execUpd ev nm p) a nm hp2 hA hnm hcond
  rw [h2]
  simp only [Except.ok.injEq, Store.mk.injEq]
  refine ⟨trivial, ?_, ?_, ?_⟩
  · show patchPos (patchPos s.positions ev.id (execUpd ev nm)) ev.id
        (execUpd ev nm) = patchPos s.positions ev.id (execUpd ev nm)
    exact patchPos_patchPos s.positions ev.id (execUpd ev nm) (fun q => rfl)
  · show obDeleteByPos (obDeleteByPos s.orderBuckets ev.id) ev.id =
      obDeleteByPos s.orderBuckets ev.id
    exact obDeleteByPos_idem _ _
  · show sbInsertAll (sbDeleteByPos
        (sbInsertAll (sbDeleteByPos s.stopBuckets ev.id)
          (stopPayload p.asset_id ev.id p.sl_x6 p.tp_x6 p.liq_x6
            p.long_side p.lots a.tick_x6)) ev.id)
      (stopPayload p.asset_id ev.id p.sl_x6 p.tp_x6 p.liq_x6
        p.long_side p.lots a.tick_x6) =
      sbInsertAll (sbDeleteByPos s.stopBuckets ev.id)
        (stopPayload p.asset_id ev.id p.sl_x6 p.tp_x6 p.liq_x6
          p.long_side p.lots a.tick_x6)
    rw [sbDeleteByPos_sbInsertAll _ _ _ (stopPayload_position_id _ _ _ _ _ _ _ _),
      sbDeleteByPos_idem]

theorem handleStops_idem (s s' : Store) (ev : StopsEv)
    (h : handleStopsUpdatedEvent s ev = .ok s') :
    handleStopsUpdatedEvent s' ev = .ok s' := by
  obtain ⟨p, a, hp, hA, hcond, rfl⟩ :=
    handleStopsUpdatedEvent_ok_inv s ev s' h
  have hp2 : lookupPos (patchPos s.positions ev.id (stopsUpd ev)) ev.id =
      some (stopsUpd ev p) := by
    rw [lookupPos_patchPos, hp]
    rfl
  have h2 := handleStopsUpdatedEvent_eval
    { assets := s.assets
      positions := patchPos s.positions ev.id (stopsUpd ev)
      orderBuckets := s.orderBuckets
      stopBuckets := sbInsertAll (sbDeleteSlTp s.stopBuckets ev.id)
        (stopPayload p.asset_id ev.id ev.slX6 ev.tpX6 0
          p.long_side p.lots a.tick_x6) }
    ev (stopsUpd ev p) a hp2 hA hcond
  rw [h2]
  simp only [Except.ok.injEq, Store.mk.injEq]
  refine ⟨trivial, ?_, trivial, ?_⟩
  · show patchPos (patchPos s.positions ev.id (stopsUpd ev)) ev.id
        (stopsUpd ev) = patchPos s.positions ev.id (stopsUpd ev)
    exact patchPos_patchPos s.positions ev.id (stopsUpd ev) (fun q => rfl)
  · show sbInsertAll (sbDeleteSlTp
        (sbInsertAll (sbDeleteSlTp s.stopBuckets ev.id)
          (stopPayload p.asset_id ev.id ev.slX6 ev.tpX6 0
            p.long_side p.lots a.tick_x6)) ev.id)
      (stopPayload p.asset_id ev.id ev.slX6 ev.tpX6 0
        p.long_side p.lots a.tick_x6) =
      sbInsertAll (sbDeleteSlTp s.stopBuckets ev.id)
        (stopPayload p.asset_id ev.id ev.slX6 ev.tpX6 0
          p.long_side p.lots a.tick_x6)
    rw [sbDeleteSlTp_sbInsertAll _ _ _ (fun r hr =>
        ⟨stopPayload_position_id _ _ _ _ _ _ _ _ r hr,
         stopPayload_sl_tp _ _ _ _ _ _ _ r hr⟩),
      sbDeleteSlTp_idem]

theorem upsertOpened_idem (s s' : Store) (ev : OpenedEv)
    (h : upsertOpenedEvent s ev = .ok s') :
    upsertOpenedEvent s' ev = .ok s' := by
  obtain ⟨a, nm, hA, hnm, hcase⟩ := upsertOpenedEvent_ok_inv s ev s' h
  rcases hcase with ⟨hst, ht, rfl⟩ | ⟨hne, hcond, rfl⟩
  · have h2 := upsertOpenedEvent_eval_order
      { assets := s.assets
        positions := insertPosIgnoreDup s.positions ev.id (openedPosRow ev nm)
        orderBuckets := obInsert s.orderBuckets
          (openedOrderBucketRow ev a.tick_x6)
        stopBuckets := s.stopBuckets }
      ev a hA hst ht
    rw [h2]
    simp only [Except.ok.injEq, Store.mk.injEq]
    refine ⟨trivial, ?_, ?_, trivial⟩
    · show insertPosIgnoreDup
          (insertPosIgnoreDup s.positions ev.id (openedPosRow ev nm)) ev.id
          (openedPosRow ev (0, 0)) =
        insertPosIgnoreDup s.positions ev.id (openedPosRow ev nm)
      exact insertPosIgnoreDup_idem _ _ _ _
    · show obInsert (obInsert s.orderBuckets
          (openedOrderBucketRow ev a.tick_x6))
          (openedOrderBucketRow ev a.tick_x6) =
        obInsert s.orderBuckets (openedOrderBucketRow ev a.tick_x6)
      exact obInsert_idem _ _
  · have h2 := upsertOpenedEvent_eval_open
      { assets := s.assets
        positions := insertPosIgnoreDup s.positions ev.id (openedPosRow ev nm)
        orderBuckets := s.orderBuckets
        stopBuckets := sbInsertAll
          (sbDeleteByPos s.stopBuckets ev.id)
          (stopPayload ev.asset ev.id ev.slX6 ev.tpX6 ev.liqX6
            ev.longSide ev.lots a.tick_x6) }
      ev a nm hA hne hnm hcond
    rw [h2]
    simp only [Except.ok.injEq, Store.mk.injEq]
    refine ⟨trivial, ?_, trivial, ?_⟩
    · show insertPosIgnoreDup
          (insertPosIgnoreDup s.positions ev.id (openedPosRow ev nm)) ev.id
          (openedPosRow ev nm) =
        insertPosIgnoreDup s.positions ev.id (openedPosRow ev nm)
      exact insertPosIgnoreDup_idem _ _ _ _
    · show sbInsertAll (sbDeleteByPos
          (sbInsertAll (sbDeleteByPos s.stopBuckets ev.id)
            (stopPayload ev.asset ev.id ev.slX6 ev.tpX6 ev.liqX6
              ev.longSide ev.lots a.tick_x6)) ev.id)
        (stopPayload ev.asset ev.id ev.slX6 ev.tpX6 ev.liqX6
          ev.longSide ev.lots a.tick_x6) =
        sbInsertAll (sbDeleteByPos s.stopBuckets ev.id)
          (stopPayload ev.asset ev.id ev.slX6 ev.tpX6 ev.liqX6
            ev.longSide ev.lots a.tick_x6)
      rw [sbDeleteByPos_sbInsertAll _ _ _ (stopPayload_position_id _ _ _ _ _ _ _ _),
        sbDeleteByPos_idem]

/-! ### Concrete fixtures -/

/-- A sample asset with tick 2 and unit lot ratio. -/
def asset0 : Asset := { tick_x6 := 2, lot_num := 1, lot_den := 1 }

/-- A resting ORDER position row: target price 5, 3 lots, no stops. -/
def orderRow0 : PositionRow :=
  { state := 0, asset_id := 0, trader_addr := "0xaa", long_side := true,
    lots := 3, leverage_x := 10, entry_x6 := none, target_x6 := some 5,
    sl_x6 := 0, tp_x6 := 0, liq_x6 := 0, notional_usd6 := none,
    margin_usd6 := none, close_reason := none, exec_x6 := none,
    pnl_usd6 := none }

/-- The `order_buckets` row indexing `orderRow0` (bucket = 5 tdiv 2 = 2). -/
def orderBucketRow0 : OrderBucketRow :=
  { asset_id := 0, bucket_id := 2, position_id := 1, lots := 3, side := true }

/-- A store holding the resting ORDER with its index row. -/
def storeOrder : Store :=
  { assets := [(0, asset0)], positions := [(1, orderRow0)],
    orderBuckets := [orderBucketRow0], stopBuckets := [] }

/-! ### C1 — Removed and the CANCELLED state -/

/-- Claim C1 counterexample: applying a Removed event with
`reason = CANCELLED` (numeric 0) to a position leaves it in state 2
(CLOSED), not 3 (CANCELLED): `handleRemovedEvent` writes `state: 2`
unconditionally. -/
theorem removed_cancelled_yields_closed :
    ((lookupPos (handleRemovedEvent storeOrder
        { id := 1, reason := 0, execX6 := 0, pnlUsd6 := 0 }).positions
      1).map PositionRow.state = some 2) ∧ (2 : Nat) ≠ 3 := by
  exact ⟨rfl, by decide⟩

/-- Claim C1 (amended): for every Removed event applied to the store, the
position's resulting state is CLOSED (numeric 2) for every reason including
CANCELLED; the reason is recorded in `close_reason` (0 = CANCELLED), and
`exec_x6` / `pnl_usd6` are recorded.  (The SQL `ingest_removed` RPC maps
CANCELLED to state 3, but the event path `handleRemovedEvent` does not.) -/
theorem removed_always_closed (s : Store) (ev : RemovedEv) (p : PositionRow)
    (hp : lookupPos s.positions ev.id = some p) :
    lookupPos (handleRemovedEvent s ev).positions ev.id =
      some { p with state := 2, close_reason := some ev.reason,
                    exec_x6 := some ev.execX6, pnl_usd6 := some ev.pnlUsd6 } := by
  unfold handleRemovedEvent
  simp only [lookupPos_patchPos, hp, Option.map_some']
  rfl

/-- Claim C1 witness: the amended statement evaluated on the concrete
resting-ORDER store with a CANCELLED removal. -/
theorem removed_always_closed_witness :
    lookupPos (handleRemovedEvent storeOrder
        { id := 1, reason := 0, execX6 := 0, pnlUsd6 := 0 }).positions 1 =
      some { orderRow0 with state := 2, close_reason := some 0,
                            exec_x6 := some 0, pnl_usd6 := some 0 } :=
  removed_always_closed storeOrder
    { id := 1, reason := 0, execX6 := 0, pnlUsd6 := 0 } orderRow0 rfl

/-! ### C2 — Removed and the bucket indexes -/

/-- Claim C2 counterexample: cancelling the resting ORDER (position 1 of
`storeOrder`) via a Removed event leaves its `order_buckets` row in place:
`handleRemovedEvent` deletes only `stop_buckets` rows. -/
theorem removed_keeps_order_bucket :
    (handleRemovedEvent storeOrder
        { id := 1, reason := 0, execX6 := 0, pnlUsd6 := 0 }).orderBuckets
      = [orderBucketRow0] ∧ orderBucketRow0.position_id = 1 := by
  exact ⟨rfl, rfl⟩

/-- Claim C2 (amended): after a Removed event, zero `stop_buckets` rows for
the id remain, but the `order_buckets` table is left untouched (a resting
ORDER's index row survives its cancellation). -/
theorem removed_deletes_only_stop_buckets (s : Store) (ev : RemovedEv) :
    ((handleRemovedEvent s ev).stopBuckets.filter
        (fun r => r.position_id == ev.id) = []) ∧
    (handleRemovedEvent s ev).orderBuckets = s.orderBuckets := by
  constructor
  · unfold handleRemovedEvent sbDeleteByPos
    induction s.stopBuckets with
    | nil => rfl
    | cons r rows ih =>
      by_cases h : r.position_id = ev.id
      · simp [List.filter_cons, h, ih]
      · have hb : (r.position_id == ev.id) = false := by simpa using h
        simp [List.filter_cons, h, hb, ih]
  · rfl

/-! ### C3 — one-way transitions -/

/-- A CLOSED position row used to exhibit backward transitions. -/
def closedRow0 : PositionRow := { orderRow0 with state := 2 }

/-- A store holding the CLOSED position. -/
def storeClosed : Store :=
  { assets := [(0, asset0)], positions := [(1, closedRow0)],
    orderBuckets := [], stopBuckets := [] }

/-- The position row after replaying Executed(entry 7) on `closedRow0`. -/
def closedExecRow : PositionRow :=
  { closedRow0 with
    state := 1
    entry_x6 := some 7
    notional_usd6 := some 21
    margin_usd6 := some 2 }

/-- The store obtained by replaying an Executed event onto the CLOSED
position: the row is back to state 1 (OPEN). -/
def storeClosedExec : Store :=
  { assets := [(0, asset0)], positions := [(1, closedExecRow)],
    orderBuckets := [], stopBuckets := [] }

/-- Claim C3 counterexample: a position whose stored state is terminal
(CLOSED, 2) is NOT left unchanged by a later Executed event — the handler
patches it back to state 1 (OPEN), a backward transition. -/
theorem executed_on_closed_reopens :
    closedRow0.state = 2 ∧
    handleExecutedEvent storeClosed { id := 1, entryX6 := 7 } =
      .ok storeClosedExec ∧
    (lookupPos storeClosedExec.positions 1).map PositionRow.state = some 1 := by
  refine ⟨rfl, rfl, rfl⟩

/-- Claim C3 (amended): the store handlers apply their writes with no guard
on the current state, so transitions are NOT one-way: a successful Executed
replay on a position whose stored state is terminal (CLOSED or CANCELLED)
moves it back to OPEN (state 1). -/
theorem executed_unguarded (s : Store) (ev : ExecutedEv) (s' : Store)
    (p : PositionRow)
    (hp : lookupPos s.positions ev.id = some p)
    (_hterm : p.state = 2 ∨ p.state = 3)
    (hOk : handleExecutedEvent s ev = .ok s') :
    (lookupPos s'.positions ev.id).map PositionRow.state = some 1 := by
  obtain ⟨p', a, nm, hp', hA, hnm, hcond, rfl⟩ :=
    handleExecutedEvent_ok_inv s ev s' hOk
  show ((lookupPos (patchPos s.positions ev.id (execUpd ev nm)) ev.id).map
    PositionRow.state) = some 1
  rw [lookupPos_patchPos, hp]
  rfl

/-- Claim C3 witness: the amended statement evaluated on the CLOSED
position of `storeClosed` replayed with Executed(entry 7). -/
theorem executed_unguarded_witness :
    (lookupPos storeClosedExec.positions 1).map PositionRow.state = some 1 :=
  executed_unguarded storeClosed { id := 1, entryX6 := 7 } storeClosedExec
    closedRow0 rfl (Or.inl rfl) rfl

/-! ### C4 — reconciler convergence -/

/-- A terminal (CLOSED) position that still carries a stale `order_buckets`
row: the reconciler can never clean it, because its repair path
(`handleRemovedEvent`) deletes only `stop_buckets` rows. -/
def staleOrderBucketRow : OrderBucketRow :=
  { asset_id := 0, bucket_id := 5, position_id := 7, lots := 3, side := true }

/-- The drifted projection for the convergence counterexample. -/
def storeStale : Store :=
  { assets := [(0, asset0)], positions := [(7, { orderRow0 with state := 2 })],
    orderBuckets := [staleOrderBucketRow], stopBuckets := [] }

/-- Claim C4: with chain state 2 (CLOSED) agreeing with the DB state, a
first reconciliation pass over id 7 performs a `removed` correction, and a
second pass over the same id again performs a `removed` correction instead
of skipping — the pass does not reach a fixed point, because the stale
`order_buckets` row survives `handleRemovedEvent`.  This contradicts both
the claim and the reconciler's own comments ("nettoie SL/TP/LIQ/ORDER"). -/
theorem reconcile_second_pass_not_skipped :
    ((reconcileStateOnly 2 storeStale 7).2.removed = 1) ∧
    ((reconcileStateOnly 2 (reconcileStateOnly 2 storeStale 7).1 7).2.removed = 1) ∧
    ((reconcileStateOnly 2 (reconcileStateOnly 2 storeStale 7).1 7).2.skipped = 0) := by
  exact ⟨rfl, rfl, rfl⟩

/-! ### C7 — BadTick checking -/

/-- An asset with a negative tick. -/
def assetNegTick : Asset := { tick_x6 := -1, lot_num := 1, lot_den := 1 }

/-- A store holding only the negative-tick asset. -/
def storeNegTick : Store :=
  { assets := [(0, assetNegTick)], positions := [], orderBuckets := [],
    stopBuckets := [] }

/-- The bucket row written with tick −1 for price 5: bucket = 5 tdiv −1 = −5. -/
def negTickBucketRow : OrderBucketRow :=
  { asset_id := 0, bucket_id := -5, position_id := 1, lots := 3, side := true }

/-- The store after ingesting the ORDER on the negative-tick asset. -/
def storeNegTickAfter : Store :=
  { assets := [(0, assetNegTick)],
    positions := [(1, orderRow0)],
    orderBuckets := [negTickBucketRow], stopBuckets := [] }

/-- Claim C7 counterexample: ingestion of an Opened(ORDER) event on an asset
with `tick_x6 = -1 ≤ 0` does NOT fail with BadTick — it succeeds and writes
both the position row and an `order_buckets` row bucketed by the negative
tick.  Only the API lookup path checks the tick. -/
theorem opened_ingestion_accepts_negative_tick :
    ((lookupAsset storeNegTick.assets 0).map Asset.tick_x6 = some (-1)) ∧
    upsertOpenedEvent storeNegTick
        { id := 1, state := 0, asset := 0, longSide := true, lots := 3,
          entryOrTargetX6 := 5, slX6 := 0, tpX6 := 0, liqX6 := 0,
          trader := "0xaa", leverageX := 10 } =
      .ok storeNegTickAfter := by
  exact ⟨rfl, rfl⟩

/-- Claim C7 (amended): only the API bucket computation validates the tick —
`computeBucketId` fails with `bad_tick` whenever the asset's `tick_x6 ≤ 0`;
the ingestion handlers perform no such check. -/
theorem computeBucketId_bad_tick (s : Store) (aid : Nat) (px : Int)
    (a : Asset) (hA : lookupAsset s.assets aid = some a)
    (hT : a.tick_x6 ≤ 0) :
    computeBucketId s aid px = .error "bad_tick" := by
  unfold computeBucketId
  rw [hA]
  simp [hT]

/-- Claim C7 witness: the amended statement on the negative-tick asset. -/
theorem computeBucketId_bad_tick_witness :
    computeBucketId storeNegTick 0 5 = .error "bad_tick" :=
  computeBucketId_bad_tick storeNegTick 0 5 assetNegTick rfl (by decide)

/-! ### C9 — bucket arithmetic on negative prices -/

/-- The position row for the negative-price ORDER (target −5). -/
def negPriceRow : PositionRow := { orderRow0 with target_x6 := some (-5) }

/-- The bucket row the code writes for price −5, tick 2: bucket −2. -/
def negPriceBucketRow : OrderBucketRow :=
  { asset_id := 0, bucket_id := -2, position_id := 1, lots := 3, side := true }

/-- The store before ingesting the negative-price ORDER. -/
def storeAsset0Only : Store :=
  { assets := [(0, asset0)], positions := [], orderBuckets := [],
    stopBuckets := [] }

/-- The store after ingesting the negative-price ORDER. -/
def storeNegPriceAfter : Store :=
  { assets := [(0, asset0)], positions := [(1, negPriceRow)],
    orderBuckets := [negPriceBucketRow], stopBuckets := [] }

/-- Claim C9 counterexample: for the negative price −5 with tick 2 the code
stores bucket −2 (BigInt truncation toward zero), while the mathematical
floor ⌊−5/2⌋ is −3. -/
theorem bucket_truncates_negative_price :
    upsertOpenedEvent storeAsset0Only
        { id := 1, state := 0, asset := 0, longSide := true, lots := 3,
          entryOrTargetX6 := -5, slX6 := 0, tpX6 := 0, liqX6 := 0,
          trader := "0xaa", leverageX := 10 } =
      .ok storeNegPriceAfter ∧
    Int.fdiv (-5) 2 = -3 ∧ ((-2 : Int) ≠ -3) := by
  refine ⟨rfl, by decide, by decide⟩

/-- A stop row in `sbInsert rows x` was already present or is `x`. -/
theorem mem_of_mem_sbInsert (rows : List StopBucketRow) (x r : StopBucketRow)
    (hr : r ∈ sbInsert rows x) : r ∈ rows ∨ r = x := by
  unfold sbInsert at hr
  split at hr
  · exact Or.inl hr
  · rcases List.mem_append.mp hr with h | h
    · exact Or.inl h
    · exact Or.inr (List.mem_singleton.mp h)

/-- A stop row in `sbInsertAll rows payload` was already present or comes
from the payload. -/
theorem mem_of_mem_sbInsertAll (payload : List StopBucketRow) :
    ∀ rows r, r ∈ sbInsertAll rows payload → r ∈ rows ∨ r ∈ payload := by
  induction payload with
  | nil => intro rows r hr; exact Or.inl hr
  | cons x xs ih =>
    intro rows r hr
    rcases ih (sbInsert rows x) r hr with h | h
    · rcases mem_of_mem_sbInsert rows x r h with h2 | h2
      · exact Or.inl h2
      · exact Or.inr (by simp [h2])
    · exact Or.inr (List.mem_cons_of_mem x h)

theorem mem_of_mem_sbDeleteByPos (rows : List StopBucketRow) (id : Nat)
    (r : StopBucketRow) (hr : r ∈ sbDeleteByPos rows id) : r ∈ rows :=
  List.mem_of_mem_filter hr

theorem mem_of_mem_sbDeleteSlTp (rows : List StopBucketRow) (id : Nat)
    (r : StopBucketRow) (hr : r ∈ sbDeleteSlTp rows id) : r ∈ rows :=
  List.mem_of_mem_filter hr

theorem mem_of_mem_obDeleteByPos (rows : List OrderBucketRow) (id : Nat)
    (r : OrderBucketRow) (hr : r ∈ obDeleteByPos rows id) : r ∈ rows :=
  List.mem_of_mem_filter hr

/-- The entries of the `rows` list built by `indexStops`: one per non-zero
stop price, tagged 1=SL, 2=TP, 3=LIQ. -/
theorem stopRows_mem_cases (sl tp liq : Int) (x : Int × Nat)
    (hx : x ∈ stopRows sl tp liq) :
    (sl ≠ 0 ∧ x = (sl, 1)) ∨ (tp ≠ 0 ∧ x = (tp, 2)) ∨
    (liq ≠ 0 ∧ x = (liq, 3)) := by
  unfold stopRows at hx
  by_cases hsl : sl = 0 <;> by_cases htp : tp = 0 <;> by_cases hlq : liq = 0 <;>
    simp [hsl, htp, hlq] at hx <;> tauto

/-- Every row of the `indexStops` payload stores the truncated quotient of
the stop price of its `stop_type` by the tick. -/
theorem stopPayload_mem_cases (aid pid : Nat) (sl tp liq : Int) (ls : Bool)
    (lots tick : Int) (r : StopBucketRow)
    (hr : r ∈ stopPayload aid pid sl tp liq ls lots tick) :
    (sl ≠ 0 ∧ r.stop_type = 1 ∧ r.bucket_id = divFloor sl tick) ∨
    (tp ≠ 0 ∧ r.stop_type = 2 ∧ r.bucket_id = divFloor tp tick) ∨
    (liq ≠ 0 ∧ r.stop_type = 3 ∧ r.bucket_id = divFloor liq tick) := by
  obtain ⟨x, hx, rfl⟩ := List.mem_map.mp hr
  rcases stopRows_mem_cases sl tp liq x hx with ⟨h, rfl⟩ | ⟨h, rfl⟩ | ⟨h, rfl⟩
  · exact Or.inl ⟨h, rfl, rfl⟩
  · exact Or.inr (Or.inl ⟨h, rfl, rfl⟩)
  · exact Or.inr (Or.inr ⟨h, rfl, rfl⟩)

/-- Claim C9 (amended): every bucket row freshly written by any of the four
handlers — the `order_buckets` row of an Opened(ORDER), and the
`stop_buckets` rows written through `indexStops` by Opened(OPEN), Executed
and StopsUpdated — stores `bucket_id = divFloor price tick`, the BigInt
truncation toward zero of the corresponding price (the ORDER target, or the
SL/TP/LIQ price matching the row's `stop_type`) by the asset's tick;
`handleRemovedEvent` writes no bucket rows at all; and the truncated
quotient agrees with the mathematical floor whenever the price is
non-negative and the tick positive (but not, as the counterexample shows,
for negative prices). -/
theorem bucket_rows_are_truncated_div :
    (∀ (s : Store) (ev : OpenedEv) (s2 : Store) (a : Asset),
      lookupAsset s.assets ev.asset = some a →
      upsertOpenedEvent s ev = .ok s2 →
      (∀ r ∈ s2.orderBuckets, r ∉ s.orderBuckets →
        r.bucket_id = divFloor ev.entryOrTargetX6 a.tick_x6) ∧
      (∀ r ∈ s2.stopBuckets, r ∉ s.stopBuckets →
        (ev.slX6 ≠ 0 ∧ r.stop_type = 1 ∧
          r.bucket_id = divFloor ev.slX6 a.tick_x6) ∨
        (ev.tpX6 ≠ 0 ∧ r.stop_type = 2 ∧
          r.bucket_id = divFloor ev.tpX6 a.tick_x6) ∨
        (ev.liqX6 ≠ 0 ∧ r.stop_type = 3 ∧
          r.bucket_id = divFloor ev.liqX6 a.tick_x6))) ∧
    (∀ (s : Store) (ev : ExecutedEv) (s2 : Store) (p : PositionRow) (a : Asset),
      lookupPos s.positions ev.id = some p →
      lookupAsset s.assets p.asset_id = some a →
      handleExecutedEvent s ev = .ok s2 →
      (∀ r ∈ s2.orderBuckets, r ∈ s.orderBuckets) ∧
      (∀ r ∈ s2.stopBuckets, r ∉ s.stopBuckets →
        (p.sl_x6 ≠ 0 ∧ r.stop_type = 1 ∧
          r.bucket_id = divFloor p.sl_x6 a.tick_x6) ∨
        (p.tp_x6 ≠ 0 ∧ r.stop_type = 2 ∧
          r.bucket_id = divFloor p.tp_x6 a.tick_x6) ∨
        (p.liq_x6 ≠ 0 ∧ r.stop_type = 3 ∧
          r.bucket_id = divFloor p.liq_x6 a.tick_x6))) ∧
    (∀ (s : Store) (ev : StopsEv) (s2 : Store) (p : PositionRow) (a : Asset),
      lookupPos s.positions ev.id = some p →
      lookupAsset s.assets p.asset_id = some a →
      handleStopsUpdatedEvent s ev = .ok s2 →
      s2.orderBuckets = s.orderBuckets ∧
      (∀ r ∈ s2.stopBuckets, r ∉ s.stopBuckets →
        (ev.slX6 ≠ 0 ∧ r.stop_type = 1 ∧
          r.bucket_id = divFloor ev.slX6 a.tick_x6) ∨
        (ev.tpX6 ≠ 0 ∧ r.stop_type = 2 ∧
          r.bucket_id = divFloor ev.tpX6 a.tick_x6))) ∧
    (∀ (s : Store) (ev : RemovedEv),
      (handleRemovedEvent s ev).orderBuckets = s.orderBuckets ∧
      ∀ r ∈ (handleRemovedEvent s ev).stopBuckets, r ∈ s.stopBuckets) ∧
    (∀ price tick : Int, 0 ≤ price → 0 < tick →
      divFloor price tick = Int.fdiv price tick) := by
  refine ⟨?_, ?_, ?_, ?_, ?_⟩
  · intro s ev s2 a hA hOk
    obtain ⟨a2, nm, hA2, hnm, hcase⟩ := upsertOpenedEvent_ok_inv s ev s2 hOk
    have haa : a2 = a := Option.some.inj (hA2.symm.trans hA)
    subst haa
    constructor
    · intro r hr hnot
      rcases hcase with ⟨hst, ht, rfl⟩ | ⟨hne, hcond, rfl⟩
      · show r.bucket_id = divFloor ev.entryOrTargetX6 a2.tick_x6
        unfold obInsert at hr
        split at hr
        · exact absurd hr hnot
        · rcases List.mem_append.mp hr with hmem | hmem
          · exact absurd hmem hnot
          · have hre : r = openedOrderBucketRow ev a2.tick_x6 :=
              List.mem_singleton.mp hmem
            rw [hre]
            rfl
      · exact absurd (show r ∈ s.orderBuckets from hr) hnot
    · intro r hr hnot
      rcases hcase with ⟨hst, ht, rfl⟩ | ⟨hne, hcond, rfl⟩
      · exact absurd (show r ∈ s.stopBuckets from hr) hnot
      · have hr2 : r ∈ sbInsertAll (sbDeleteByPos s.stopBuckets ev.id)
            (stopPayload ev.asset ev.id ev.slX6 ev.tpX6 ev.liqX6
              ev.longSide ev.lots a2.tick_x6) := hr
        rcases mem_of_mem_sbInsertAll _ _ r hr2 with h | h
        · exact absurd (mem_of_mem_sbDeleteByPos _ _ _ h) hnot
        · exact stopPayload_mem_cases _ _ _ _ _ _ _ _ r h
  · intro s ev s2 p a hp hA hOk
    obtain ⟨p2, a2, nm, hp2, hA2, hnm, hcond, rfl⟩ :=
      handleExecutedEvent_ok_inv s ev s2 hOk
    have hpp : p2 = p := Option.some.inj (hp2.symm.trans hp)
    subst hpp
    have haa : a2 = a := Option.some.inj (hA2.symm.trans hA)
    subst haa
    constructor
    · intro r hr
      exact mem_of_mem_obDeleteByPos _ _ _ hr
    · intro r hr hnot
      have hr2 : r ∈ sbInsertAll (sbDeleteByPos s.stopBuckets ev.id)
          (stopPayload p2.asset_id ev.id p2.sl_x6 p2.tp_x6 p2.liq_x6
            p2.long_side p2.lots a2.tick_x6) := hr
      rcases mem_of_mem_sbInsertAll _ _ r hr2 with h | h
      · exact absurd (mem_of_mem_sbDeleteByPos _ _ _ h) hnot
      · exact stopPayload_mem_cases _ _ _ _ _ _ _ _ r h
  · intro s ev s2 p a hp hA hOk
    obtain ⟨p2, a2, hp2, hA2, hcond, rfl⟩ :=
      handleStopsUpdatedEvent_ok_inv s ev s2 hOk
    have hpp : p2 = p := Option.some.inj (hp2.symm.trans hp)
    subst hpp
    have haa : a2 = a := Option.some.inj (hA2.symm.trans hA)
    subst haa
    constructor
    · rfl
    · intro r hr hnot
      have hr2 : r ∈ sbInsertAll (sbDeleteSlTp s.stopBuckets ev.id)
          (stopPayload p2.asset_id ev.id ev.slX6 ev.tpX6 0
            p2.long_side p2.lots a2.tick_x6) := hr
      rcases mem_of_mem_sbInsertAll _ _ r hr2 with h | h
      · exact absurd (mem_of_mem_sbDeleteSlTp _ _ _ h) hnot
      · rcases stopPayload_mem_cases _ _ _ _ _ _ _ _ r h with hc | hc | hc
        · exact Or.inl hc
        · exact Or.inr hc
        · exact absurd rfl hc.1
  · intro s ev
    constructor
    · rfl
    · intro r hr
      exact mem_of_mem_sbDeleteByPos s.stopBuckets ev.id r hr
  · intro price tick hpx htk
    show Int.tdiv price tick = Int.fdiv price tick
    exact (Int.fdiv_eq_tdiv hpx (le_of_lt htk)).symm

/-- The Opened(OPEN) event used by the C9 witness: SL 3, TP 7, LIQ 9 on
asset 0 (tick 2). -/
def stopWitnessEv : OpenedEv :=
  { id := 4, state := 1, asset := 0, longSide := true, lots := 2,
    entryOrTargetX6 := 10, slX6 := 3, tpX6 := 7, liqX6 := 9,
    trader := "0xbb", leverageX := 5 }

/-- The position row written for `stopWitnessEv` (notional 20, margin 4). -/
def stopWitnessRow : PositionRow :=
  { state := 1, asset_id := 0, trader_addr := "0xbb", long_side := true,
    lots := 2, leverage_x := 5, entry_x6 := some 10, target_x6 := none,
    sl_x6 := 3, tp_x6 := 7, liq_x6 := 9, notional_usd6 := some 20,
    margin_usd6 := some 4, close_reason := none, exec_x6 := none,
    pnl_usd6 := none }

/-- The store after ingesting `stopWitnessEv`: stop buckets 3/2 = 1,
7/2 = 3, 9/2 = 4 by truncated division with tick 2. -/
def storeStopWitnessAfter : Store :=
  { assets := [(0, asset0)], positions := [(4, stopWitnessRow)],
    orderBuckets := [],
    stopBuckets :=
      [{ asset_id := 0, bucket_id := 1, position_id := 4, stop_type := 1,
         lots := 2, side := false },
       { asset_id := 0, bucket_id := 3, position_id := 4, stop_type := 2,
         lots := 2, side := false },
       { asset_id := 0, bucket_id := 4, position_id := 4, stop_type := 3,
         lots := 2, side := false }] }

/-- Claim C9 witness: the amended statement evaluated concretely — every
stop row written for `stopWitnessEv` (tick 2) carries the truncated
quotient of the SL/TP/LIQ price of its type, and truncation agrees with
the floor at the non-negative price 7. -/
theorem bucket_rows_are_truncated_div_witness :
    (∀ r ∈ storeStopWitnessAfter.stopBuckets,
      r ∉ storeAsset0Only.stopBuckets →
        ((3 : Int) ≠ 0 ∧ r.stop_type = 1 ∧ r.bucket_id = divFloor 3 2) ∨
        ((7 : Int) ≠ 0 ∧ r.stop_type = 2 ∧ r.bucket_id = divFloor 7 2) ∨
        ((9 : Int) ≠ 0 ∧ r.stop_type = 3 ∧ r.bucket_id = divFloor 9 2)) ∧
    divFloor 7 2 = Int.fdiv 7 2 := by
  refine ⟨?_,
    bucket_rows_are_truncated_div.2.2.2.2 7 2 (by decide) (by decide)⟩
  intro r hr hnot
  exact (bucket_rows_are_truncated_div.1 storeAsset0Only stopWitnessEv
    storeStopWitnessAfter asset0 rfl rfl).2 r hr hnot

/-! ### C10 — Opened never modifies an existing position row -/

/-- Claim C10: an Opened ingestion for an id that already has a positions
row never modifies that row (PostgREST `resolution=ignore-duplicates`):
the stored row keeps all its old values even when the event's fields
differ; existing `order_buckets` rows all survive; and in the ORDER branch
the `stop_buckets` table is untouched. -/
theorem opened_preserves_existing (s : Store) (ev : OpenedEv) (s' : Store)
    (p : PositionRow)
    (hp : lookupPos s.positions ev.id = some p)
    (hOk : upsertOpenedEvent s ev = .ok s') :
    lookupPos s'.positions ev.id = some p ∧
    (∀ r ∈ s.orderBuckets, r ∈ s'.orderBuckets) ∧
    (ev.state = 0 → s'.stopBuckets = s.stopBuckets) := by
  obtain ⟨a, nm, hA, hnm, hcase⟩ := upsertOpenedEvent_ok_inv s ev s' hOk
  have hins : insertPosIgnoreDup s.positions ev.id (openedPosRow ev nm) =
      s.positions := by
    apply insertPosIgnoreDup_of_isSome
    rw [hp]
    rfl
  rcases hcase with ⟨_, _, rfl⟩ | ⟨hne, _, rfl⟩
  · refine ⟨?_, ?_, fun _ => rfl⟩
    · show lookupPos (insertPosIgnoreDup s.positions ev.id
        (openedPosRow ev nm)) ev.id = some p
      rw [hins, hp]
    · intro r hr
      show r ∈ obInsert s.orderBuckets (openedOrderBucketRow ev a.tick_x6)
      unfold obInsert
      split
      · exact hr
      · exact List.mem_append_left _ hr
  · refine ⟨?_, fun r hr => hr, fun h0 => absurd h0 hne⟩
    show lookupPos (insertPosIgnoreDup s.positions ev.id
      (openedPosRow ev nm)) ev.id = some p
    rw [hins, hp]

/-- Claim C10 witness: re-delivering an Opened event with different field
values (lots 9, target 11) for id 1, which `storeOrder` already holds,
leaves the stored row `orderRow0` unchanged. -/
theorem opened_preserves_existing_witness :
    lookupPos ((upsertOpenedEvent storeOrder
        { id := 1, state := 0, asset := 0, longSide := false, lots := 9,
          entryOrTargetX6 := 11, slX6 := 0, tpX6 := 0, liqX6 := 0,
          trader := "0xbb", leverageX := 3 }).toOption.elim
      ([] : List (Nat × PositionRow)) Store.positions) 1 = some orderRow0 := by
  have h := opened_preserves_existing storeOrder
    { id := 1, state := 0, asset := 0, longSide := false, lots := 9,
      entryOrTargetX6 := 11, slX6 := 0, tpX6 := 0, liqX6 := 0,
      trader := "0xbb", leverageX := 3 }
    { assets := [(0, asset0)], positions := [(1, orderRow0)],
      orderBuckets := [orderBucketRow0,
        { asset_id := 0, bucket_id := 5, position_id := 1, lots := 9,
          side := false }],
      stopBuckets := [] }
    orderRow0 rfl rfl
  exact h.1

/-! ### C5 — idempotence of re-delivery -/

/-- The Opened(ORDER) event used as the idempotence witness input. -/
def openedEv5 : OpenedEv :=
  { id := 1, state := 0, asset := 0, longSide := true, lots := 3,
    entryOrTargetX6 := 5, slX6 := 0, tpX6 := 0, liqX6 := 0,
    trader := "0xaa", leverageX := 10 }

/-- Claim C5: re-delivery is idempotent.  For every event (Opened, Executed,
StopsUpdated, Removed) and every store in which the event has just been
applied successfully, applying the exact same event a second time succeeds
and leaves the positions table and both bucket tables identical. -/
theorem applyEvent_idempotent (s : Store) (e : Event) (s' : Store)
    (h : applyEvent s e = .ok s') : applyEvent s' e = .ok s' := by
  cases e with
  | opened ev => exact upsertOpened_idem s s' ev h
  | executed ev => exact handleExecuted_idem s s' ev h
  | stopsUpdated ev => exact handleStops_idem s s' ev h
  | removed ev =>
    have hs : handleRemovedEvent s ev = s' := Except.ok.inj h
    show Except.ok (handleRemovedEvent s' ev) = Except.ok s'
    rw [← hs, handleRemoved_idem]

/-- Claim C5 witness: applying the Opened(ORDER) event twice, starting from
the asset-only store: the second application returns the same store. -/
theorem applyEvent_idempotent_witness :
    applyEvent storeOrder (.opened openedEv5) = .ok storeOrder :=
  applyEvent_idempotent storeAsset0Only (.opened openedEv5) storeOrder rfl

/-! ### C8 — state-only reconciliation, drift case ORDER→OPEN -/

/-- A drifted DB row: still ORDER in the DB (target 10, SL 4 stored), while
the chain has moved on to OPEN. -/
def c8row : PositionRow :=
  { state := 0, asset_id := 0, trader_addr := "0xaa", long_side := true,
    lots := 2, leverage_x := 5, entry_x6 := none, target_x6 := some 10,
    sl_x6 := 4, tp_x6 := 0, liq_x6 := 0, notional_usd6 := none,
    margin_usd6 := none, close_reason := none, exec_x6 := none,
    pnl_usd6 := none }

/-- The store holding the drifted ORDER row under id 5. -/
def storeC8 : Store :=
  { assets := [(0, asset0)], positions := [(5, c8row)],
    orderBuckets := [], stopBuckets := [] }

/-- Claim C8: when the DB row is in state ORDER (0), the chain reports OPEN
(1), and the row stores a non-zero `entry_x6` or `target_x6`, the
reconciler injects an Executed with the stored entry price (falling back to
the stored target price) and afterwards injects a StopsUpdated exactly when
the row's `sl_x6` or `tp_x6` is non-zero: the summary counts one `executed`,
counts `stops` iff a stop is non-zero, and the resulting row's `entry_x6`
is the selected price. -/
theorem reconcile_order_to_open (s : Store) (id : Nat) (db : PositionRow)
    (a : Asset)
    (hdb : lookupPos s.positions id = some db)
    (hst : db.state = 0)
    (hnz : db.entry_x6.getD 0 ≠ 0 ∨ db.target_x6.getD 0 ≠ 0)
    (hA : lookupAsset s.assets db.asset_id = some a)
    (ht : a.tick_x6 ≠ 0)
    (hden : a.lot_den ≠ 0)
    (hlev : db.leverage_x ≠ 0) :
    (reconcileStateOnly 1 s id).2.executed = 1 ∧
    (reconcileStateOnly 1 s id).2.stops =
      (if db.sl_x6 ≠ 0 ∨ db.tp_x6 ≠ 0 then 1 else 0) ∧
    ((lookupPos (reconcileStateOnly 1 s id).1.positions id).map
        PositionRow.entry_x6) =
      some (some (if db.entry_x6.getD 0 ≠ 0 then db.entry_x6.getD 0
        else db.target_x6.getD 0)) := by
  have hmain : ∀ sel : Int, sel ≠ 0 →
      (if db.entry_x6.getD 0 = 0 then
        (if db.target_x6.getD 0 = 0 then 0 else db.target_x6.getD 0)
       else db.entry_x6.getD 0) = sel →
      (reconcileStateOnly 1 s id).2.executed = 1 ∧
      (reconcileStateOnly 1 s id).2.stops =
        (if db.sl_x6 ≠ 0 ∨ db.tp_x6 ≠ 0 then 1 else 0) ∧
      ((lookupPos (reconcileStateOnly 1 s id).1.positions id).map
          PositionRow.entry_x6) = some (some sel) := by
    intro sel hselne hseleq
    have hnm : computeNotionalAndMargin sel db.lots db.leverage_x
        a.lot_num a.lot_den =
        .ok (mulDivFloor sel (db.lots * a.lot_num) a.lot_den,
          divFloor (mulDivFloor sel (db.lots * a.lot_num) a.lot_den)
            db.leverage_x) := by
      simp [computeNotionalAndMargin, hden, hlev]
    have hexec := handleExecutedEvent_eval s { id := id, entryX6 := sel }
      db a _ hdb hA hnm (Or.inr ht)
    by_cases hS : db.sl_x6 ≠ 0 ∨ db.tp_x6 ≠ 0
    · have hp1 : lookupPos (patchPos s.positions id
          (execUpd { id := id, entryX6 := sel }
            (mulDivFloor sel (db.lots * a.lot_num) a.lot_den,
              divFloor (mulDivFloor sel (db.lots * a.lot_num) a.lot_den)
                db.leverage_x))) id =
          some (execUpd { id := id, entryX6 := sel }
            (mulDivFloor sel (db.lots * a.lot_num) a.lot_den,
              divFloor (mulDivFloor sel (db.lots * a.lot_num) a.lot_den)
                db.leverage_x) db) := by
        rw [lookupPos_patchPos, hdb]
        rfl
      have hstops := handleStopsUpdatedEvent_eval
        { assets := s.assets
          positions := patchPos s.positions id
            (execUpd { id := id, entryX6 := sel }
              (mulDivFloor sel (db.lots * a.lot_num) a.lot_den,
                divFloor (mulDivFloor sel (db.lots * a.lot_num) a.lot_den)
                  db.leverage_x))
          orderBuckets := obDeleteByPos s.orderBuckets id
          stopBuckets := sbInsertAll (sbDeleteByPos s.stopBuckets id)
            (stopPayload db.asset_id id db.sl_x6 db.tp_x6 db.liq_x6
              db.long_side db.lots a.tick_x6) }
        { id := id, slX6 := db.sl_x6, tpX6 := db.tp_x6 }
        (execUpd { id := id, entryX6 := sel }
          (mulDivFloor sel (db.lots * a.lot_num) a.lot_den,
            divFloor (mulDivFloor sel (db.lots * a.lot_num) a.lot_den)
              db.leverage_x) db)
        a hp1 hA (Or.inr ht)
      simp [reconcileStateOnly, hdb, hst, hseleq, hselne, hexec, hS, hstops,
        lookupPos_patchPos, stopsUpd, execUpd]
    · simp [reconcileStateOnly, hdb, hst, hseleq, hselne, hexec, hS,
        lookupPos_patchPos, execUpd]
  by_cases hE : db.entry_x6.getD 0 = 0
  · have hT : db.target_x6.getD 0 ≠ 0 := by
      rcases hnz with h | h
      · exact absurd hE h
      · exact h
    have h := hmain (db.target_x6.getD 0) hT (by simp [hE, hT])
    simpa [hE] using h
  · have h := hmain (db.entry_x6.getD 0) hE (by simp [hE])
    simpa [hE] using h

/-- Claim C8 witness: the drifted store `storeC8` (ORDER row with target 10
and a non-zero SL) reconciled against chain state OPEN: one executed, one
stops injection, and entry 10 recorded. -/
theorem reconcile_order_to_open_witness :
    (reconcileStateOnly 1 storeC8 5).2.executed = 1 ∧
    (reconcileStateOnly 1 storeC8 5).2.stops =
      (if c8row.sl_x6 ≠ 0 ∨ c8row.tp_x6 ≠ 0 then 1 else 0) ∧
    ((lookupPos (reconcileStateOnly 1 storeC8 5).1.positions 5).map
        PositionRow.entry_x6) =
      some (some (if c8row.entry_x6.getD 0 ≠ 0 then c8row.entry_x6.getD 0
        else c8row.target_x6.getD 0)) :=
  reconcile_order_to_open storeC8 5 c8row asset0 rfl rfl
    (Or.inr (by decide)) rfl (by decide) (by decide) (by decide)

/-! ### C6 — the exposure aggregate invariant -/

theorem trgInsertRow_eval (agg : ExpoMap) (r : TrgPosRow) (a : Nat)
    (sd : Bool) :
    trgInsertRow agg r a sd = agg a sd + openContribIf r a sd := by
  unfold trgInsertRow exposure_apply openContribIf rowContrib
  by_cases hst : r.state = 1 <;> by_cases hl : r.lots = 0 <;>
    by_cases hk : a = r.asset_id ∧ sd = r.long_side <;>
      simp [hst, hl, hk, one_mul, mul_one]

theorem trgDeleteRow_eval (agg : ExpoMap) (r : TrgPosRow) (a : Nat)
    (sd : Bool) :
    trgDeleteRow agg r a sd = agg a sd - openContribIf r a sd := by
  unfold trgDeleteRow exposure_apply openContribIf rowContrib
  by_cases hst : r.state = 1 <;> by_cases hl : r.lots = 0 <;>
    by_cases hk : a = r.asset_id ∧ sd = r.long_side <;>
      by_cases hq : r.liq_x6 > 0 <;>
        simp [hst, hl, hk, hq, neg_one_mul, mul_one, sub_eq_add_neg,
          Prod.neg_mk, neg_zero]

theorem trgUpdateRow_eval (agg : ExpoMap) (oldR newR : TrgPosRow) (a : Nat)
    (sd : Bool) :
    trgUpdateRow agg oldR newR a sd =
      agg a sd - openContribIf oldR a sd + openContribIf newR a sd := by
  unfold trgUpdateRow
  rw [trgInsertRow_eval, trgDeleteRow_eval]

theorem recomputeAgg_cons (q : Nat × TrgPosRow) (ps : List (Nat × TrgPosRow))
    (a : Nat) (sd : Bool) :
    recomputeAgg (q :: ps) a sd = openContribIf q.2 a sd + recomputeAgg ps a sd :=
  rfl

theorem recomputeAgg_append_single (ps : List (Nat × TrgPosRow)) (id : Nat)
    (r : TrgPosRow) (a : Nat) (sd : Bool) :
    recomputeAgg (ps ++ [(id, r)]) a sd =
      recomputeAgg ps a sd + openContribIf r a sd := by
  induction ps with
  | nil =>
    show openContribIf r a sd + (0 : ExpoVals) = 0 + openContribIf r a sd
    abel
  | cons q ps ih =>
    rw [List.cons_append, recomputeAgg_cons, ih, recomputeAgg_cons]
    abel

theorem opUpdate_fold_eval (ps : List (Nat × TrgPosRow)) (agg : ExpoMap)
    (id : Nat) (f : TrgPosRow → TrgPosRow) (a : Nat) (sd : Bool) :
    (ps.foldl (fun g q => if q.1 = id then trgUpdateRow g q.2 (f q.2) else g)
      agg) a sd =
    agg a sd +
      recomputeAgg (ps.map (fun q => if q.1 = id then (q.1, f q.2) else q))
        a sd -
      recomputeAgg ps a sd := by
  induction ps generalizing agg with
  | nil =>
    show agg a sd = agg a sd + (0 : ExpoVals) - 0
    abel
  | cons q ps ih =>
    simp only [List.foldl_cons, List.map_cons]
    rw [ih]
    by_cases hq : q.1 = id
    · rw [if_pos hq, if_pos hq, trgUpdateRow_eval,
        recomputeAgg_cons, recomputeAgg_cons]
      abel
    · rw [if_neg hq, if_neg hq, recomputeAgg_cons, recomputeAgg_cons]
      abel

theorem opDelete_fold_eval (ps : List (Nat × TrgPosRow)) (agg : ExpoMap)
    (id : Nat) (a : Nat) (sd : Bool) :
    (ps.foldl (fun g q => if q.1 = id then trgDeleteRow g q.2 else g) agg)
      a sd =
    agg a sd + recomputeAgg (ps.filter (fun q => q.1 ≠ id)) a sd -
      recomputeAgg ps a sd := by
  induction ps generalizing agg with
  | nil =>
    show agg a sd = agg a sd + (0 : ExpoVals) - 0
    abel
  | cons q ps ih =>
    simp only [List.foldl_cons]
    rw [ih]
    by_cases hq : q.1 = id
    · have hfil : (q :: ps).filter (fun x => x.1 ≠ id) =
          ps.filter (fun x => x.1 ≠ id) := by
        simp [List.filter_cons, hq]
      rw [if_pos hq, hfil, trgDeleteRow_eval, recomputeAgg_cons]
      abel
    · have hfil : (q :: ps).filter (fun x => x.1 ≠ id) =
          q :: ps.filter (fun x => x.1 ≠ id) := by
        simp [List.filter_cons, hq]
      rw [if_neg hq, hfil, recomputeAgg_cons, recomputeAgg_cons]
      abel

theorem exposureInv_applyTrgOp (p : Proj) (op : TrgOp)
    (hInv : ExposureInv p) : ExposureInv (applyTrgOp p op) := by
  cases op with
  | insert id r =>
    unfold applyTrgOp
    by_cases hex : (lookupTrg p.positions id).isSome
    · simpa [hex] using hInv
    · simp only [hex, if_false, Bool.false_eq_true]
      intro a sd
      show trgInsertRow p.agg r a sd =
        recomputeAgg (p.positions ++ [(id, r)]) a sd
      rw [trgInsertRow_eval, recomputeAgg_append_single, hInv a sd]
  | update id f =>
    intro a sd
    show (p.positions.foldl
      (fun g q => if q.1 = id then trgUpdateRow g q.2 (f q.2) else g)
      p.agg) a sd = recomputeAgg
        (p.positions.map (fun q => if q.1 = id then (q.1, f q.2) else q)) a sd
    rw [opUpdate_fold_eval, hInv a sd]
    abel
  | delete id =>
    intro a sd
    show (p.positions.foldl
      (fun g q => if q.1 = id then trgDeleteRow g q.2 else g) p.agg) a sd =
      recomputeAgg (p.positions.filter (fun q => q.1 ≠ id)) a sd
    rw [opDelete_fold_eval, hInv a sd]
    abel

/-- Claim C6 (amended): after any sequence of row-level `positions` writes
starting from the empty projection, every `exposure_agg` entry equals the
aggregate recomputed from the positions rows with `state = OPEN`,
`long_side = side` AND `lots ≠ 0` (liq sums over rows with `liq_x6 > 0`):
the trigger's `exposure_apply` returns early for zero-lot rows, so those
rows are excluded from every stored sum and from `positions_count`. -/
theorem exposure_agg_invariant (ops : List TrgOp) :
    ExposureInv (applyTrgOps Proj.empty ops) := by
  have step : ∀ (l : List TrgOp) (p : Proj), ExposureInv p →
      ExposureInv (applyTrgOps p l) := by
    intro l
    induction l with
    | nil => exact fun p h => h
    | cons o rest ih => exact fun p h => ih _ (exposureInv_applyTrgOp p o h)
  exact step ops Proj.empty (fun a sd => rfl)

/-- An OPEN row with zero lots: counted by the spec's recomputation but
skipped entirely by the trigger. -/
def zeroLotRow : TrgPosRow :=
  { asset_id := 0, long_side := true, lots := 0, entry_x6 := 5,
    leverage_x := 2, liq_x6 := 0, state := 1 }

/-- Claim C6 counterexample: inserting an OPEN position with `lots = 0`
leaves `positions_count` of `exposure_agg(0, LONG)` at 0, while the
aggregate recomputed from the positions rows with `state = OPEN` and
`long_side = side` (as the claim words it, with no lots restriction)
counts 1 position. -/
theorem exposure_skips_zero_lot_rows :
    (((applyTrgOp Proj.empty (.insert 1 zeroLotRow)).agg 0 true).positions_count
      = 0) ∧
    ((specRecomputeAgg (applyTrgOp Proj.empty (.insert 1 zeroLotRow)).positions
        0 true).positions_count = 1) ∧
    (0 : Int) ≠ 1 := by
  refine ⟨rfl, by decide, by decide⟩

end OrderBook
